import Mathlib

/-! Touchscreen drawing demo: bounded undo/redo history and touch dispatch.

A shallow embedding of `Core/Src/touchscreen.c`.

* The two global arrays `undoStack` / `redoStack` are functions from an index to a
  `DrawingAction`; every array access is bounds-checked against `MAX_HISTORY_SIZE`
  and an out-of-bounds access makes the operation return `none`.
* `undoTop` / `redoTop` are C `int`s.  They are only incremented under the guard
  `top < MAX_HISTORY_SIZE - 1` and only decremented under the guard `top >= 0`, so no
  `int` arithmetic can overflow and they are modelled as `Int`.
* `x`, `y` are `uint16_t`, `color` is `uint32_t`, `selectedColorIndex` is `uint8_t`;
  they are only copied and compared, never used in arithmetic, so they are `Nat`.
* Calls into the LCD utility library are recorded, in call order, in the `lcd` log.
* The `UTIL_LCD_COLOR_*` values come from a header that is not part of this source
  file; they are a parameter (`LcdColors`).
-/

namespace Touchscreen

/-! ## Compile-time constants -/

def CIRCLE_RADIUS : Int := 15
def CIRCLE_SPACING : Int := 10

def CLEAR_BUTTON_RADIUS : Int := 25
def CLEAR_BUTTON_XPOS : Int := 437
def CLEAR_BUTTON_YPOS : Int := 30

def ERASER_RADIUS : Int := 25
def ERASER_XPOS : Int := 437
def ERASER_YPOS : Int := 240

def UNDO_BUTTON_RADIUS : Int := 25
def UNDO_BUTTON_XPOS : Int := 437
def UNDO_BUTTON_YPOS : Int := 100

def REDO_BUTTON_RADIUS : Int := 25
def REDO_BUTTON_XPOS : Int := 437
def REDO_BUTTON_YPOS : Int := 170

def CANVAS_XPOS : Int := 50
def CANVAS_YPOS : Int := 15
def CANVAS_WIDTH : Int := 350
def CANVAS_HEIGHT : Int := 242

/-- The macro `CIRCLE_XPOS(i)`: it ignores its argument. -/
def CIRCLE_XPOS (_i : Int) : Int := CIRCLE_RADIUS + CIRCLE_SPACING

/-- The macro `CIRCLE_YPOS(i)`. -/
def CIRCLE_YPOS (i : Int) : Int := i * (2 * CIRCLE_RADIUS + CIRCLE_SPACING) + 60

def MAX_HISTORY_SIZE : Int := 150

def NUM_COLORS : Nat := 5

/-- The `UTIL_LCD_COLOR_*` values used by the program (declared in a header outside this
source file, hence a parameter). -/
structure LcdColors where
  UTIL_LCD_COLOR_BLACK : Nat
  UTIL_LCD_COLOR_BLUE : Nat
  UTIL_LCD_COLOR_RED : Nat
  UTIL_LCD_COLOR_YELLOW : Nat
  UTIL_LCD_COLOR_GREEN : Nat
  UTIL_LCD_COLOR_WHITE : Nat
  UTIL_LCD_COLOR_GRAY : Nat
  deriving DecidableEq, Repr

/-- The table `COLOR_LIST[NUM_COLORS]`. -/
def COLOR_LIST (c : LcdColors) : List Nat :=
  [c.UTIL_LCD_COLOR_BLACK, c.UTIL_LCD_COLOR_BLUE, c.UTIL_LCD_COLOR_RED,
   c.UTIL_LCD_COLOR_YELLOW, c.UTIL_LCD_COLOR_GREEN]

/-! ## Data model -/

/-- The struct `DrawingAction`. -/
structure DrawingAction where
  x : Nat
  y : Nat
  color : Nat
  deriving DecidableEq, Repr

inductive Font where
  | Font12
  deriving DecidableEq, Repr

inductive TextMode where
  | CENTER_MODE
  deriving DecidableEq, Repr

/-- One call into the LCD utility library, with its arguments. -/
inductive LcdCall where
  | UTIL_LCD_Clear (color : Nat)
  | UTIL_LCD_FillCircle (x y r : Int) (color : Nat)
  | UTIL_LCD_DrawCircle (x y r : Int) (color : Nat)
  | UTIL_LCD_DrawRect (x y w h : Int) (color : Nat)
  | UTIL_LCD_SetTextColor (color : Nat)
  | UTIL_LCD_SetBackColor (color : Nat)
  | UTIL_LCD_SetFont (font : Font)
  | UTIL_LCD_DisplayStringAt (x y : Int) (text : String) (mode : TextMode)
  deriving DecidableEq, Repr

open LcdCall

/-- The program variables: the four globals of the history, the local
`selectedColorIndex` of `Touchscreen_demo`, and the log of LCD calls made so far. -/
structure State where
  undoStack : Nat → DrawingAction
  redoStack : Nat → DrawingAction
  undoTop : Int
  redoTop : Int
  selectedColorIndex : Nat
  lcd : List LcdCall

/-- Read `a[i]` of an array declared with `MAX_HISTORY_SIZE` elements. -/
def arrRead (a : Nat → DrawingAction) (i : Int) : Option DrawingAction :=
  if 0 ≤ i ∧ i < MAX_HISTORY_SIZE then some (a i.toNat) else none

/-- The assignment `a[i] = f(a[i])` on an array declared with `MAX_HISTORY_SIZE` elements. -/
def arrModify (a : Nat → DrawingAction) (i : Int) (f : DrawingAction → DrawingAction) :
    Option (Nat → DrawingAction) :=
  if 0 ≤ i ∧ i < MAX_HISTORY_SIZE then some (Function.update a i.toNat (f (a i.toNat))) else none

/-- Record one LCD call. -/
def emit (s : State) (call : LcdCall) : State :=
  { s with lcd := s.lcd ++ [call] }

/-! ## The history operations -/

/-- The function `SaveToUndoStack`. -/
def SaveToUndoStack (s : State) (x y color : Nat) : Option State :=
  if s.undoTop < MAX_HISTORY_SIZE - 1 then do
    let top := s.undoTop + 1
    let a1 ← arrModify s.undoStack top (fun d => { d with x := x })
    let a2 ← arrModify a1 top (fun d => { d with y := y })
    let a3 ← arrModify a2 top (fun d => { d with color := color })
    some { s with undoStack := a3, undoTop := top, redoTop := -1 }
  else
    some s

/-- The function `Touchscreen_DrawCanvas`. -/
def Touchscreen_DrawCanvas (c : LcdColors) (s : State) : State :=
  emit (emit s (UTIL_LCD_SetTextColor c.UTIL_LCD_COLOR_BLACK))
    (UTIL_LCD_DrawRect CANVAS_XPOS CANVAS_YPOS CANVAS_WIDTH CANVAS_HEIGHT c.UTIL_LCD_COLOR_BLACK)

/-- The loop of `RedrawCanvas`, with `n` iterations left and loop variable `i`. -/
def RedrawCanvas.loop : Nat → Int → State → Option State
  | 0, _, s => some s
  | n + 1, i, s => do
    let a ← arrRead s.undoStack i
    RedrawCanvas.loop n (i + 1) (emit s (UTIL_LCD_FillCircle a.x a.y 5 a.color))

/-- The function `RedrawCanvas`: `for (i = 0; i <= undoTop; i++)` runs `undoTop + 1`
times when that is positive, and not at all otherwise. -/
def RedrawCanvas (s : State) : Option State :=
  RedrawCanvas.loop (s.undoTop + 1).toNat 0 s

/-- The function `Undo`. -/
def Undo (c : LcdColors) (s : State) : Option State :=
  if s.undoTop ≥ 0 then do
    let action ← arrRead s.undoStack s.undoTop
    let s1 := { s with undoTop := s.undoTop - 1 }
    let s2 := emit s1 (UTIL_LCD_FillCircle action.x action.y 10 c.UTIL_LCD_COLOR_WHITE)
    let s3 ← (if s2.redoTop < MAX_HISTORY_SIZE - 1 then do
        let r ← arrModify s2.redoStack (s2.redoTop + 1) (fun _ => action)
        some { s2 with redoStack := r, redoTop := s2.redoTop + 1 }
      else
        some s2)
    RedrawCanvas (Touchscreen_DrawCanvas c s3)
  else
    some s

/-- The function `Redo`. -/
def Redo (s : State) : Option State :=
  if s.redoTop ≥ 0 then do
    let action ← arrRead s.redoStack s.redoTop
    let s1 := { s with redoTop := s.redoTop - 1 }
    let s2 := emit s1 (UTIL_LCD_FillCircle action.x action.y 5 action.color)
    if s2.undoTop < MAX_HISTORY_SIZE - 1 then do
      let u ← arrModify s2.undoStack (s2.undoTop + 1) (fun _ => action)
      some { s2 with undoStack := u, undoTop := s2.undoTop + 1 }
    else
      some s2
  else
    some s

/-! ## Drawing of the user-interface chrome -/

/-- The function `Touchscreen_DrawButton_Clear`. -/
def Touchscreen_DrawButton_Clear (c : LcdColors) (s : State) : State :=
  let s := emit s (UTIL_LCD_FillCircle CLEAR_BUTTON_XPOS CLEAR_BUTTON_YPOS CLEAR_BUTTON_RADIUS
    c.UTIL_LCD_COLOR_RED)
  let s := emit s (UTIL_LCD_SetTextColor c.UTIL_LCD_COLOR_WHITE)
  let s := emit s (UTIL_LCD_SetBackColor c.UTIL_LCD_COLOR_RED)
  let s := emit s (UTIL_LCD_SetFont Font.Font12)
  emit s (UTIL_LCD_DisplayStringAt 5000 (CLEAR_BUTTON_YPOS - 13) "Clear" TextMode.CENTER_MODE)

/-- The function `Touchscreen_DrawButton_Eraser`. -/
def Touchscreen_DrawButton_Eraser (c : LcdColors) (selected : Bool) (s : State) : State :=
  let s := emit s (UTIL_LCD_DrawCircle ERASER_XPOS ERASER_YPOS ERASER_RADIUS c.UTIL_LCD_COLOR_GRAY)
  let s :=
    if selected then
      let s := emit s (UTIL_LCD_FillCircle ERASER_XPOS ERASER_YPOS (ERASER_RADIUS - 3)
        c.UTIL_LCD_COLOR_WHITE)
      let s := emit s (UTIL_LCD_SetBackColor c.UTIL_LCD_COLOR_WHITE)
      emit s (UTIL_LCD_SetTextColor c.UTIL_LCD_COLOR_GRAY)
    else
      let s := emit s (UTIL_LCD_FillCircle ERASER_XPOS ERASER_YPOS ERASER_RADIUS
        c.UTIL_LCD_COLOR_GRAY)
      let s := emit s (UTIL_LCD_SetBackColor c.UTIL_LCD_COLOR_GRAY)
      emit s (UTIL_LCD_SetTextColor c.UTIL_LCD_COLOR_WHITE)
  let s := emit s (UTIL_LCD_SetFont Font.Font12)
  emit s (UTIL_LCD_DisplayStringAt 5000 (ERASER_YPOS - 13) "Eraser" TextMode.CENTER_MODE)

/-- The function `Touchscreen_DrawButton_Undo`. -/
def Touchscreen_DrawButton_Undo (c : LcdColors) (s : State) : State :=
  let s := emit s (UTIL_LCD_FillCircle UNDO_BUTTON_XPOS UNDO_BUTTON_YPOS UNDO_BUTTON_RADIUS
    c.UTIL_LCD_COLOR_BLUE)
  let s := emit s (UTIL_LCD_SetTextColor c.UTIL_LCD_COLOR_WHITE)
  let s := emit s (UTIL_LCD_SetBackColor c.UTIL_LCD_COLOR_BLUE)
  let s := emit s (UTIL_LCD_SetFont Font.Font12)
  emit s (UTIL_LCD_DisplayStringAt 5000 (UNDO_BUTTON_YPOS - 13) "Undo" TextMode.CENTER_MODE)

/-- The function `Touchscreen_DrawButton_Redo`. -/
def Touchscreen_DrawButton_Redo (c : LcdColors) (s : State) : State :=
  let s := emit s (UTIL_LCD_FillCircle REDO_BUTTON_XPOS REDO_BUTTON_YPOS REDO_BUTTON_RADIUS
    c.UTIL_LCD_COLOR_GREEN)
  let s := emit s (UTIL_LCD_SetTextColor c.UTIL_LCD_COLOR_WHITE)
  let s := emit s (UTIL_LCD_SetBackColor c.UTIL_LCD_COLOR_GREEN)
  let s := emit s (UTIL_LCD_SetFont Font.Font12)
  emit s (UTIL_LCD_DisplayStringAt 5000 (REDO_BUTTON_YPOS - 13) "Redo" TextMode.CENTER_MODE)

/-- The loop of `Touchscreen_DrawBackground_Circles`, with `n` iterations left and loop
variable `i`; the read `COLOR_LIST[i]` is bounds-checked. -/
def Touchscreen_DrawBackground_Circles.loop (c : LcdColors) (state : Nat) :
    Nat → Nat → State → Option State
  | 0, _, s => some s
  | n + 1, i, s => do
    let col ← (COLOR_LIST c)[i]?
    let s1 := emit s (UTIL_LCD_FillCircle (CIRCLE_XPOS i) (CIRCLE_YPOS i) CIRCLE_RADIUS col)
    let s2 :=
      if i = state then
        emit s1 (UTIL_LCD_FillCircle (CIRCLE_XPOS i) (CIRCLE_YPOS i) (CIRCLE_RADIUS - 2)
          c.UTIL_LCD_COLOR_WHITE)
      else s1
    Touchscreen_DrawBackground_Circles.loop c state n (i + 1) s2

/-- The function `Touchscreen_DrawBackground_Circles`. -/
def Touchscreen_DrawBackground_Circles (c : LcdColors) (state : Nat) (s : State) :
    Option State := do
  let s ← Touchscreen_DrawBackground_Circles.loop c state NUM_COLORS 0 s
  if state = NUM_COLORS then
    some (Touchscreen_DrawButton_Eraser c true s)
  else
    some (Touchscreen_DrawButton_Eraser c false s)

/-! ## The touch dispatcher (`Touchscreen_demo`) -/

/-- The test of the palette loop for swatch `i`. -/
def paletteHit (i : Nat) (x1 y1 : Nat) : Prop :=
  (x1 : Int) > CIRCLE_XPOS i - CIRCLE_RADIUS ∧ (x1 : Int) < CIRCLE_XPOS i + CIRCLE_RADIUS ∧
  (y1 : Int) > CIRCLE_YPOS i - CIRCLE_RADIUS ∧ (y1 : Int) < CIRCLE_YPOS i + CIRCLE_RADIUS

/-- The test guarding the clear-button branch. -/
def clearHit (x1 y1 : Nat) : Prop :=
  (x1 : Int) > CLEAR_BUTTON_XPOS - CLEAR_BUTTON_RADIUS ∧
  (x1 : Int) < CLEAR_BUTTON_XPOS + CLEAR_BUTTON_RADIUS ∧
  (y1 : Int) > CLEAR_BUTTON_YPOS - CLEAR_BUTTON_RADIUS ∧
  (y1 : Int) < CLEAR_BUTTON_YPOS + CLEAR_BUTTON_RADIUS

/-- The test guarding the eraser-button branch. -/
def eraserHit (x1 y1 : Nat) : Prop :=
  (x1 : Int) > ERASER_XPOS - ERASER_RADIUS ∧ (x1 : Int) < ERASER_XPOS + ERASER_RADIUS ∧
  (y1 : Int) > ERASER_YPOS - ERASER_RADIUS ∧ (y1 : Int) < ERASER_YPOS + ERASER_RADIUS

/-- The test guarding the undo-button branch. -/
def undoHit (x1 y1 : Nat) : Prop :=
  (x1 : Int) > UNDO_BUTTON_XPOS - UNDO_BUTTON_RADIUS ∧
  (x1 : Int) < UNDO_BUTTON_XPOS + UNDO_BUTTON_RADIUS ∧
  (y1 : Int) > UNDO_BUTTON_YPOS - UNDO_BUTTON_RADIUS ∧
  (y1 : Int) < UNDO_BUTTON_YPOS + UNDO_BUTTON_RADIUS

/-- The test guarding the redo-button branch. -/
def redoHit (x1 y1 : Nat) : Prop :=
  (x1 : Int) > REDO_BUTTON_XPOS - REDO_BUTTON_RADIUS ∧
  (x1 : Int) < REDO_BUTTON_XPOS + REDO_BUTTON_RADIUS ∧
  (y1 : Int) > REDO_BUTTON_YPOS - REDO_BUTTON_RADIUS ∧
  (y1 : Int) < REDO_BUTTON_YPOS + REDO_BUTTON_RADIUS

/-- The test guarding the canvas branch. -/
def canvasHit (x1 y1 : Nat) : Prop :=
  (x1 : Int) ≥ CANVAS_XPOS ∧ (x1 : Int) ≤ CANVAS_XPOS + CANVAS_WIDTH ∧
  (y1 : Int) ≥ CANVAS_YPOS ∧ (y1 : Int) ≤ CANVAS_YPOS + CANVAS_HEIGHT

instance (i x1 y1 : Nat) : Decidable (paletteHit i x1 y1) := by
  unfold paletteHit; infer_instance

instance (x1 y1 : Nat) : Decidable (clearHit x1 y1) := by unfold clearHit; infer_instance

instance (x1 y1 : Nat) : Decidable (eraserHit x1 y1) := by unfold eraserHit; infer_instance

instance (x1 y1 : Nat) : Decidable (undoHit x1 y1) := by unfold undoHit; infer_instance

instance (x1 y1 : Nat) : Decidable (redoHit x1 y1) := by unfold redoHit; infer_instance

instance (x1 y1 : Nat) : Decidable (canvasHit x1 y1) := by unfold canvasHit; infer_instance

/-- The palette loop of `Touchscreen_demo`, with `n` iterations left and loop variable `i`;
the first swatch hit is selected and ends the loop (`break`). -/
def Touchscreen_demo.paletteLoop (c : LcdColors) (x1 y1 : Nat) :
    Nat → Nat → State → Option State
  | 0, _, s => some s
  | n + 1, i, s =>
    if paletteHit i x1 y1 then
      Touchscreen_DrawBackground_Circles c i { s with selectedColorIndex := i }
    else
      Touchscreen_demo.paletteLoop c x1 y1 n (i + 1) s

/-- The two assignments `undoTop = -1; redoTop = -1;` of the clear branch. -/
def Touchscreen_demo.resetHistory (s : State) : State :=
  { s with undoTop := -1, redoTop := -1 }

/-- The clear-button branch of `Touchscreen_demo`. -/
def Touchscreen_demo.clearBranch (c : LcdColors) (s : State) : Option State := do
  let s := emit s (UTIL_LCD_Clear c.UTIL_LCD_COLOR_WHITE)
  let s := Touchscreen_DrawCanvas c s
  let s ← Touchscreen_DrawBackground_Circles c s.selectedColorIndex s
  let s := Touchscreen_DrawButton_Clear c s
  let s := Touchscreen_DrawButton_Eraser c false s
  let s := Touchscreen_DrawButton_Undo c s
  let s := Touchscreen_DrawButton_Redo c s
  some (Touchscreen_demo.resetHistory s)

/-- The canvas branch of `Touchscreen_demo`; the read `COLOR_LIST[selectedColorIndex]` is
bounds-checked. -/
def Touchscreen_demo.canvasBranch (c : LcdColors) (x1 y1 : Nat) (s : State) : Option State :=
  if s.selectedColorIndex < NUM_COLORS then do
    let col ← (COLOR_LIST c)[s.selectedColorIndex]?
    SaveToUndoStack (emit s (UTIL_LCD_FillCircle x1 y1 5 col)) x1 y1 col
  else if s.selectedColorIndex = NUM_COLORS then
    SaveToUndoStack (emit s (UTIL_LCD_FillCircle x1 y1 10 c.UTIL_LCD_COLOR_WHITE)) x1 y1
      c.UTIL_LCD_COLOR_WHITE
  else
    some s

/-- The body of `if (TS_State.TouchDetected)` in the polling loop of `Touchscreen_demo`,
for the sample held in the `uint16_t` locals `x1`, `y1`.  The six region checks are made
one after another, none excluding the next. -/
def Touchscreen_demo.onTouch (c : LcdColors) (s : State) (x1 y1 : Nat) : Option State := do
  let s ← Touchscreen_demo.paletteLoop c x1 y1 NUM_COLORS 0 s
  let s ← (if clearHit x1 y1 then Touchscreen_demo.clearBranch c s else some s)
  let s ← (if eraserHit x1 y1 then
      Touchscreen_DrawBackground_Circles c NUM_COLORS { s with selectedColorIndex := NUM_COLORS }
    else some s)
  let s ← (if undoHit x1 y1 then Undo c s else some s)
  let s ← (if redoHit x1 y1 then Redo s else some s)
  (if canvasHit x1 y1 then Touchscreen_demo.canvasBranch c x1 y1 s else some s)

/-- The program variables when `Touchscreen_demo` is entered: zero-initialised arrays,
`undoTop = redoTop = -1`, `selectedColorIndex = 0`, nothing drawn yet. -/
def initialState : State where
  undoStack := fun _ => ⟨0, 0, 0⟩
  redoStack := fun _ => ⟨0, 0, 0⟩
  undoTop := -1
  redoTop := -1
  selectedColorIndex := 0
  lcd := []

/-- The drawing done by `Touchscreen_demo` before it enters the polling loop. -/
def Touchscreen_demo.setup (c : LcdColors) : Option State := do
  let s := emit initialState (UTIL_LCD_Clear c.UTIL_LCD_COLOR_WHITE)
  let s := Touchscreen_DrawCanvas c s
  let s ← Touchscreen_DrawBackground_Circles c s.selectedColorIndex s
  let s := Touchscreen_DrawButton_Clear c s
  let s := Touchscreen_DrawButton_Eraser c false s
  let s := Touchscreen_DrawButton_Undo c s
  some (Touchscreen_DrawButton_Redo c s)

/-- The polling loop run on a list of touch samples `(x1, y1)`, oldest first. -/
def Touchscreen_demo.run (c : LcdColors) : State → List (Nat × Nat) → Option State
  | s, [] => some s
  | s, p :: ps => do
    let s1 ← Touchscreen_demo.onTouch c s p.1 p.2
    Touchscreen_demo.run c s1 ps

/-- The session states the program can be in at the top of its polling loop. -/
def Reachable (c : LcdColors) (s : State) : Prop :=
  ∃ s0 samples, Touchscreen_demo.setup c = some s0 ∧ Touchscreen_demo.run c s0 samples = some s

/-! ## Views of the history -/

/-- The elements `a[0] .. a[top]` of a stack, bottom first. -/
def stackView (a : Nat → DrawingAction) (top : Int) : List DrawingAction :=
  (List.range (top + 1).toNat).map a

/-- The undo stack, oldest action first (what `RedrawCanvas` replays). -/
def undoList (s : State) : List DrawingAction := stackView s.undoStack s.undoTop

/-- The redo stack, bottom first: its last element is the most recently undone action. -/
def redoList (s : State) : List DrawingAction := stackView s.redoStack s.redoTop

/-- A history within capacity: both stacks hold between 0 and `MAX_HISTORY_SIZE` actions. -/
def WithinCapacity (s : State) : Prop :=
  -1 ≤ s.undoTop ∧ s.undoTop ≤ MAX_HISTORY_SIZE - 1 ∧
  -1 ≤ s.redoTop ∧ s.redoTop ≤ MAX_HISTORY_SIZE - 1

instance (s : State) : Decidable (WithinCapacity s) := by
  unfold WithinCapacity; infer_instance

/-- The LCD call with which `Redo` and `RedrawCanvas` draw a recorded action. -/
def replayDot (a : DrawingAction) : LcdCall :=
  UTIL_LCD_FillCircle a.x a.y 5 a.color

/-- The four operations on the history: the three history functions and the reset made by
the clear branch of `Touchscreen_demo`. -/
inductive HistoryOp where
  | save (x y color : Nat)
  | undo
  | redo
  | clear
  deriving DecidableEq, Repr

/-- Run one history operation. -/
def applyOp (c : LcdColors) (s : State) : HistoryOp → Option State
  | HistoryOp.save x y color => SaveToUndoStack s x y color
  | HistoryOp.undo => Undo c s
  | HistoryOp.redo => Redo s
  | HistoryOp.clear => some (Touchscreen_demo.resetHistory s)

/-- Run a list of history operations, first one first. -/
def applyOps (c : LcdColors) : State → List HistoryOp → Option State
  | s, [] => some s
  | s, op :: ops => do
    let s1 ← applyOp c s op
    applyOps c s1 ops

/-- Commit a list of actions one after another with `SaveToUndoStack`. -/
def commitAll : State → List DrawingAction → Option State
  | s, [] => some s
  | s, a :: as => do
    let s1 ← SaveToUndoStack s a.x a.y a.color
    commitAll s1 as

/-- Run the operation `f` `n` times in a row. -/
def repeatOp (f : State → Option State) : Nat → State → Option State
  | 0, s => some s
  | n + 1, s => do
    let s1 ← f s
    repeatOp f n s1

/-- The invariant of the polling loop: both tops are at least `-1`, the two stacks together
hold at most `MAX_HISTORY_SIZE` actions, and `selectedColorIndex` is a palette index or
`NUM_COLORS` (the eraser). -/
def SessionInv (s : State) : Prop :=
  -1 ≤ s.undoTop ∧ -1 ≤ s.redoTop ∧ s.undoTop + s.redoTop + 2 ≤ MAX_HISTORY_SIZE ∧
  s.selectedColorIndex ≤ NUM_COLORS

instance (s : State) : Decidable (SessionInv s) := by
  unfold SessionInv; infer_instance

/-- The session state at the first poll, when the setup drawing has been done. -/
def bootState (c : LcdColors) : State :=
  (Touchscreen_demo.setup c).getD initialState

/-- The state `s'` differs from `s` at most by LCD calls appended to the log. -/
def LcdOnly (s s' : State) : Prop :=
  ∃ l, s' = { s with lcd := s.lcd ++ l }

/-- The regions of the screen that the dispatcher tests, in the order of its tests. -/
inductive Region where
  | palette (i : Nat)
  | clear
  | eraser
  | undo
  | redo
  | canvas
  deriving DecidableEq, Repr

/-- The dispatcher's test for a region; a palette swatch is tested only for an index below
`NUM_COLORS`. -/
def regionHit (x1 y1 : Nat) : Region → Prop
  | Region.palette i => i < NUM_COLORS ∧ paletteHit i x1 y1
  | Region.clear => clearHit x1 y1
  | Region.eraser => eraserHit x1 y1
  | Region.undo => undoHit x1 y1
  | Region.redo => redoHit x1 y1
  | Region.canvas => canvasHit x1 y1

/-- Region resolution as the specification words it: the regions are tried in the order
palette swatch 0 to 4, clear, eraser, undo, redo, canvas, and only the first one containing
the point is reported. -/
def resolve (x1 y1 : Nat) : Option Region :=
  if paletteHit 0 x1 y1 then some (Region.palette 0)
  else if paletteHit 1 x1 y1 then some (Region.palette 1)
  else if paletteHit 2 x1 y1 then some (Region.palette 2)
  else if paletteHit 3 x1 y1 then some (Region.palette 3)
  else if paletteHit 4 x1 y1 then some (Region.palette 4)
  else if clearHit x1 y1 then some Region.clear
  else if eraserHit x1 y1 then some Region.eraser
  else if undoHit x1 y1 then some Region.undo
  else if redoHit x1 y1 then some Region.redo
  else if canvasHit x1 y1 then some Region.canvas
  else none

/-- The action that the dispatcher attaches to a region: the body of the branch guarded by
that region's test; no region, no action. -/
def regionAction (c : LcdColors) (s : State) (x1 y1 : Nat) : Option Region → Option State
  | some (Region.palette i) =>
    Touchscreen_DrawBackground_Circles c i { s with selectedColorIndex := i }
  | some Region.clear => Touchscreen_demo.clearBranch c s
  | some Region.eraser =>
    Touchscreen_DrawBackground_Circles c NUM_COLORS { s with selectedColorIndex := NUM_COLORS }
  | some Region.undo => Undo c s
  | some Region.redo => Redo s
  | some Region.canvas => Touchscreen_demo.canvasBranch c x1 y1 s
  | none => some s

/-- Containment in the open disc of centre `(cx, cy)` and radius `r`, as the specification
describes the circular zones. -/
def inCircle (cx cy r : Int) (x1 y1 : Nat) : Prop :=
  ((x1 : Int) - cx) * ((x1 : Int) - cx) + ((y1 : Int) - cy) * ((y1 : Int) - cy) < r * r

instance (cx cy r : Int) (x1 y1 : Nat) : Decidable (inCircle cx cy r x1 y1) := by
  unfold inCircle; infer_instance

instance (x1 y1 : Nat) (r : Region) : Decidable (regionHit x1 y1 r) := by
  cases r <;> unfold regionHit <;> infer_instance

/-- A history whose undo stack holds 150 actions (`undoTop = 149`) and whose redo stack is
empty, with the first palette colour selected. -/
def fullState : State where
  undoStack := fun i => ⟨i, i, 0⟩
  redoStack := fun _ => ⟨0, 0, 0⟩
  undoTop := 149
  redoTop := -1
  selectedColorIndex := 0
  lcd := []

/-- A history with undo stack `[{1,2,3}, {4,5,6}]` and redo stack `[{7,8,9}]`. -/
def sampleState : State where
  undoStack := fun i => if i = 0 then ⟨1, 2, 3⟩ else if i = 1 then ⟨4, 5, 6⟩ else ⟨0, 0, 0⟩
  redoStack := fun i => if i = 0 then ⟨7, 8, 9⟩ else ⟨0, 0, 0⟩
  undoTop := 1
  redoTop := 0
  selectedColorIndex := 0
  lcd := []

/-- Colour values for concrete evaluations (32-bit ARGB words). -/
def sampleColors : LcdColors where
  UTIL_LCD_COLOR_BLACK := 0xFF000000
  UTIL_LCD_COLOR_BLUE := 0xFF0000FF
  UTIL_LCD_COLOR_RED := 0xFFFF0000
  UTIL_LCD_COLOR_YELLOW := 0xFFFFFF00
  UTIL_LCD_COLOR_GREEN := 0xFF00FF00
  UTIL_LCD_COLOR_WHITE := 0xFFFFFFFF
  UTIL_LCD_COLOR_GRAY := 0xFF808080

/-- The session state after the setup drawing, a touch at `(100, 100)` inside the canvas and
a touch at the centre `(437, 100)` of the undo button: the dot has been undone, so the undo
stack is empty and the redo stack holds `{100, 100, black}`. -/
def undoneState : State :=
  (Touchscreen_demo.run sampleColors (bootState sampleColors) [(100, 100), (437, 100)]).getD
    initialState

/-! ## Lemmas on array accesses and stack views -/

theorem arrRead_eq_some (a : Nat → DrawingAction) (i : Int) (h0 : 0 ≤ i)
    (h1 : i < MAX_HISTORY_SIZE) : arrRead a i = some (a i.toNat) := by
  simp [arrRead, h0, h1]

theorem arrModify_eq_some (a : Nat → DrawingAction) (i : Int) (f : DrawingAction → DrawingAction)
    (h0 : 0 ≤ i) (h1 : i < MAX_HISTORY_SIZE) :
    arrModify a i f = some (Function.update a i.toNat (f (a i.toNat))) := by
  simp [arrModify, h0, h1]

theorem stackView_neg_one (a : Nat → DrawingAction) : stackView a (-1) = [] := by
  simp [stackView]

theorem stackView_length (a : Nat → DrawingAction) (top : Int) (h : -1 ≤ top) :
    ((stackView a top).length : Int) = top + 1 := by
  simp only [stackView, List.length_map, List.length_range]
  omega

theorem stackView_succ (a : Nat → DrawingAction) (top : Int) (h : -1 ≤ top) :
    stackView a (top + 1) = stackView a top ++ [a (top + 1).toNat] := by
  have e : (top + 1 + 1).toNat = (top + 1).toNat + 1 := by omega
  simp only [stackView, e, List.range_succ, List.map_append, List.map_cons, List.map_nil]

theorem stackView_update_of_lt (a : Nat → DrawingAction) (top : Int) (i : Nat)
    (v : DrawingAction) (h : top < (i : Int)) :
    stackView (Function.update a i v) top = stackView a top := by
  unfold stackView
  apply List.map_congr_left
  intro j hj
  have hj2 : j < (top + 1).toNat := List.mem_range.mp hj
  have hne : j ≠ i := by omega
  simp [Function.update, hne]

theorem stackView_push (a : Nat → DrawingAction) (top : Int) (v : DrawingAction)
    (h : -1 ≤ top) :
    stackView (Function.update a (top + 1).toNat v) (top + 1) = stackView a top ++ [v] := by
  rw [stackView_succ _ _ h, stackView_update_of_lt a top (top + 1).toNat v (by omega)]
  simp

theorem stackView_pop (a : Nat → DrawingAction) (top : Int) (h : 0 ≤ top) :
    stackView a top = stackView a (top - 1) ++ [a top.toNat] := by
  have := stackView_succ a (top - 1) (by omega)
  simpa using this

/-- `SaveToUndoStack` when there is room: the three field writes amount to storing the
action at index `undoTop + 1`. -/
theorem SaveToUndoStack_of_room (s : State) (x y color : Nat) (h0 : -1 ≤ s.undoTop)
    (h1 : s.undoTop < MAX_HISTORY_SIZE - 1) :
    SaveToUndoStack s x y color =
      some { s with
        undoStack := Function.update s.undoStack (s.undoTop + 1).toNat ⟨x, y, color⟩
        undoTop := s.undoTop + 1
        redoTop := -1 } := by
  have b0 : 0 ≤ s.undoTop + 1 := by omega
  have b1 : s.undoTop + 1 < MAX_HISTORY_SIZE := by omega
  simp [SaveToUndoStack, h1, arrModify, b0, b1]

theorem SaveToUndoStack_of_full (s : State) (x y color : Nat)
    (h : ¬ s.undoTop < MAX_HISTORY_SIZE - 1) : SaveToUndoStack s x y color = some s := by
  simp [SaveToUndoStack, h]

theorem RedrawCanvas.loop_eq (n i : Nat) (s : State) (h : (i : Int) + n ≤ MAX_HISTORY_SIZE) :
    RedrawCanvas.loop n i s =
      some { s with lcd := s.lcd ++ (List.range' i n).map (fun j => replayDot (s.undoStack j)) } := by
  induction n generalizing i s with
  | zero => simp [RedrawCanvas.loop]
  | succ n ih =>
    have b1 : (i : Int) < MAX_HISTORY_SIZE := by omega
    have e : ((i : Int) + 1) = ((i + 1 : Nat) : Int) := by push_cast; rfl
    have hi := ih (i + 1) (emit s (replayDot (s.undoStack i))) (by push_cast; omega)
    simp only [RedrawCanvas.loop, arrRead_eq_some _ _ (Int.natCast_nonneg i) b1, Int.toNat_ofNat,
      Option.bind_eq_bind, Option.some_bind, e]
    simp only [replayDot] at hi
    rw [hi]
    simp [emit, List.range'_succ, replayDot]

theorem RedrawCanvas_eq (s : State) (h0 : -1 ≤ s.undoTop)
    (h1 : s.undoTop ≤ MAX_HISTORY_SIZE - 1) :
    RedrawCanvas s = some { s with lcd := s.lcd ++ (undoList s).map replayDot } := by
  have h := RedrawCanvas.loop_eq (s.undoTop + 1).toNat 0 s (by omega)
  simp only [RedrawCanvas, Nat.cast_zero] at h ⊢
  rw [h]
  simp [undoList, stackView, List.range_eq_range', Function.comp_def]

/-- `Undo` on an empty undo stack does nothing. -/
theorem Undo_of_empty (c : LcdColors) (s : State) (h : s.undoTop < 0) : Undo c s = some s := by
  have h2 : ¬ s.undoTop ≥ 0 := by omega
  simp [Undo, h2]

/-- `Undo` when the redo stack has room. -/
theorem Undo_of_room (c : LcdColors) (s : State) (hu0 : 0 ≤ s.undoTop)
    (hu1 : s.undoTop ≤ MAX_HISTORY_SIZE - 1) (hr0 : -1 ≤ s.redoTop)
    (hr1 : s.redoTop < MAX_HISTORY_SIZE - 1) :
    Undo c s =
      some { s with
        redoStack := Function.update s.redoStack (s.redoTop + 1).toNat
          (s.undoStack s.undoTop.toNat)
        undoTop := s.undoTop - 1
        redoTop := s.redoTop + 1
        lcd := s.lcd ++
          [UTIL_LCD_FillCircle (s.undoStack s.undoTop.toNat).x (s.undoStack s.undoTop.toNat).y 10
              c.UTIL_LCD_COLOR_WHITE,
            UTIL_LCD_SetTextColor c.UTIL_LCD_COLOR_BLACK,
            UTIL_LCD_DrawRect CANVAS_XPOS CANVAS_YPOS CANVAS_WIDTH CANVAS_HEIGHT
              c.UTIL_LCD_COLOR_BLACK] ++
          (stackView s.undoStack (s.undoTop - 1)).map replayDot } := by
  have a1 : s.undoTop < MAX_HISTORY_SIZE := by omega
  have b0 : 0 ≤ s.redoTop + 1 := by omega
  have b1 : s.redoTop + 1 < MAX_HISTORY_SIZE := by omega
  have hge : s.undoTop ≥ 0 := hu0
  simp only [Undo, hge, if_true, arrRead_eq_some _ _ hu0 a1, Option.bind_eq_bind,
    Option.some_bind, emit, hr1, arrModify_eq_some _ _ _ b0 b1, Touchscreen_DrawCanvas]
  rw [RedrawCanvas_eq _ (by simp only; omega) (by simp only; omega)]
  simp [undoList]

/-- `Undo` when the redo stack is full: the popped action is not recorded. -/
theorem Undo_of_full (c : LcdColors) (s : State) (hu0 : 0 ≤ s.undoTop)
    (hu1 : s.undoTop ≤ MAX_HISTORY_SIZE - 1) (hr : ¬ s.redoTop < MAX_HISTORY_SIZE - 1) :
    Undo c s =
      some { s with
        undoTop := s.undoTop - 1
        lcd := s.lcd ++
          [UTIL_LCD_FillCircle (s.undoStack s.undoTop.toNat).x (s.undoStack s.undoTop.toNat).y 10
              c.UTIL_LCD_COLOR_WHITE,
            UTIL_LCD_SetTextColor c.UTIL_LCD_COLOR_BLACK,
            UTIL_LCD_DrawRect CANVAS_XPOS CANVAS_YPOS CANVAS_WIDTH CANVAS_HEIGHT
              c.UTIL_LCD_COLOR_BLACK] ++
          (stackView s.undoStack (s.undoTop - 1)).map replayDot } := by
  have a1 : s.undoTop < MAX_HISTORY_SIZE := by omega
  have hge : s.undoTop ≥ 0 := hu0
  simp only [Undo, hge, if_true, arrRead_eq_some _ _ hu0 a1, Option.bind_eq_bind,
    Option.some_bind, emit, hr, if_false, Touchscreen_DrawCanvas]
  rw [RedrawCanvas_eq _ (by simp only; omega) (by simp only; omega)]
  simp [undoList]

/-- `Redo` on an empty redo stack does nothing. -/
theorem Redo_of_empty (s : State) (h : s.redoTop < 0) : Redo s = some s := by
  have h2 : ¬ s.redoTop ≥ 0 := by omega
  simp [Redo, h2]

/-- `Redo` when the undo stack has room. -/
theorem Redo_of_room (s : State) (hr0 : 0 ≤ s.redoTop) (hr1 : s.redoTop ≤ MAX_HISTORY_SIZE - 1)
    (hu0 : -1 ≤ s.undoTop) (hu1 : s.undoTop < MAX_HISTORY_SIZE - 1) :
    Redo s =
      some { s with
        undoStack := Function.update s.undoStack (s.undoTop + 1).toNat
          (s.redoStack s.redoTop.toNat)
        undoTop := s.undoTop + 1
        redoTop := s.redoTop - 1
        lcd := s.lcd ++ [replayDot (s.redoStack s.redoTop.toNat)] } := by
  have a1 : s.redoTop < MAX_HISTORY_SIZE := by omega
  have b0 : 0 ≤ s.undoTop + 1 := by omega
  have b1 : s.undoTop + 1 < MAX_HISTORY_SIZE := by omega
  have hge : s.redoTop ≥ 0 := hr0
  simp [Redo, hge, arrRead_eq_some _ _ hr0 a1, emit, hu1, arrModify_eq_some _ _ _ b0 b1,
    replayDot]

/-- `Redo` when the undo stack is full: the action is drawn but not recorded. -/
theorem Redo_of_full (s : State) (hr0 : 0 ≤ s.redoTop) (hr1 : s.redoTop ≤ MAX_HISTORY_SIZE - 1)
    (hu : ¬ s.undoTop < MAX_HISTORY_SIZE - 1) :
    Redo s =
      some { s with
        redoTop := s.redoTop - 1
        lcd := s.lcd ++ [replayDot (s.redoStack s.redoTop.toNat)] } := by
  have a1 : s.redoTop < MAX_HISTORY_SIZE := by omega
  have hge : s.redoTop ≥ 0 := hr0
  simp [Redo, hge, arrRead_eq_some _ _ hr0 a1, emit, hu, replayDot]

theorem stackView_ne_nil (a : Nat → DrawingAction) (top : Int) (h : stackView a top ≠ []) :
    0 ≤ top := by
  by_contra hneg
  apply h
  have e : (top + 1).toNat = 0 := by omega
  simp [stackView, e]

/-- How `SaveToUndoStack` moves the two stack tops. -/
theorem SaveToUndoStack_tops (s : State) (x y color : Nat) (h0 : -1 ≤ s.undoTop) :
    ∃ s', SaveToUndoStack s x y color = some s' ∧
      s'.selectedColorIndex = s.selectedColorIndex ∧
      ((s.undoTop < MAX_HISTORY_SIZE - 1 ∧ s'.undoTop = s.undoTop + 1 ∧ s'.redoTop = -1) ∨
        (¬ s.undoTop < MAX_HISTORY_SIZE - 1 ∧ s' = s)) := by
  by_cases h1 : s.undoTop < MAX_HISTORY_SIZE - 1
  · exact ⟨_, SaveToUndoStack_of_room s x y color h0 h1, rfl, Or.inl ⟨h1, rfl, rfl⟩⟩
  · exact ⟨_, SaveToUndoStack_of_full s x y color h1, rfl, Or.inr ⟨h1, rfl⟩⟩

/-- How `Undo` moves the two stack tops. -/
theorem Undo_tops (c : LcdColors) (s : State) (hu1 : s.undoTop ≤ MAX_HISTORY_SIZE - 1)
    (hr0 : -1 ≤ s.redoTop) :
    ∃ s', Undo c s = some s' ∧ s'.selectedColorIndex = s.selectedColorIndex ∧
      ((s.undoTop < 0 ∧ s' = s) ∨
        (0 ≤ s.undoTop ∧ s'.undoTop = s.undoTop - 1 ∧
          ((s.redoTop < MAX_HISTORY_SIZE - 1 ∧ s'.redoTop = s.redoTop + 1) ∨
            (¬ s.redoTop < MAX_HISTORY_SIZE - 1 ∧ s'.redoTop = s.redoTop)))) := by
  by_cases hu0 : s.undoTop < 0
  · exact ⟨_, Undo_of_empty c s hu0, rfl, Or.inl ⟨hu0, rfl⟩⟩
  · have hu0' : 0 ≤ s.undoTop := by omega
    by_cases hr : s.redoTop < MAX_HISTORY_SIZE - 1
    · exact ⟨_, Undo_of_room c s hu0' hu1 hr0 hr, rfl, Or.inr ⟨hu0', rfl, Or.inl ⟨hr, rfl⟩⟩⟩
    · exact ⟨_, Undo_of_full c s hu0' hu1 hr, rfl, Or.inr ⟨hu0', rfl, Or.inr ⟨hr, rfl⟩⟩⟩

/-- How `Redo` moves the two stack tops. -/
theorem Redo_tops (s : State) (hr1 : s.redoTop ≤ MAX_HISTORY_SIZE - 1) (hu0 : -1 ≤ s.undoTop) :
    ∃ s', Redo s = some s' ∧ s'.selectedColorIndex = s.selectedColorIndex ∧
      ((s.redoTop < 0 ∧ s' = s) ∨
        (0 ≤ s.redoTop ∧ s'.redoTop = s.redoTop - 1 ∧
          ((s.undoTop < MAX_HISTORY_SIZE - 1 ∧ s'.undoTop = s.undoTop + 1) ∨
            (¬ s.undoTop < MAX_HISTORY_SIZE - 1 ∧ s'.undoTop = s.undoTop)))) := by
  by_cases hr0 : s.redoTop < 0
  · exact ⟨_, Redo_of_empty s hr0, rfl, Or.inl ⟨hr0, rfl⟩⟩
  · have hr0' : 0 ≤ s.redoTop := by omega
    by_cases hu : s.undoTop < MAX_HISTORY_SIZE - 1
    · exact ⟨_, Redo_of_room s hr0' hr1 hu0 hu, rfl, Or.inr ⟨hr0', rfl, Or.inl ⟨hu, rfl⟩⟩⟩
    · exact ⟨_, Redo_of_full s hr0' hr1 hu, rfl, Or.inr ⟨hr0', rfl, Or.inr ⟨hu, rfl⟩⟩⟩

/-- Each history operation returns and keeps the history within capacity. -/
theorem applyOp_withinCapacity (c : LcdColors) (s : State) (op : HistoryOp)
    (h : WithinCapacity s) : ∃ s', applyOp c s op = some s' ∧ WithinCapacity s' := by
  obtain ⟨hu0, hu1, hr0, hr1⟩ := h
  cases op with
  | save x y color =>
    obtain ⟨s', he, -, ht⟩ := SaveToUndoStack_tops s x y color hu0
    refine ⟨s', he, ?_⟩
    simp only [WithinCapacity, MAX_HISTORY_SIZE] at *
    rcases ht with ⟨h1, h2, h3⟩ | ⟨-, rfl⟩
    · omega
    · omega
  | undo =>
    obtain ⟨s', he, -, ht⟩ := Undo_tops c s hu1 hr0
    refine ⟨s', he, ?_⟩
    simp only [WithinCapacity, MAX_HISTORY_SIZE] at *
    rcases ht with ⟨-, rfl⟩ | ⟨h1, h2, ⟨h3, h4⟩ | ⟨h3, h4⟩⟩
    · omega
    · omega
    · omega
  | redo =>
    obtain ⟨s', he, -, ht⟩ := Redo_tops s hr1 hu0
    refine ⟨s', he, ?_⟩
    simp only [WithinCapacity, MAX_HISTORY_SIZE] at *
    rcases ht with ⟨-, rfl⟩ | ⟨h1, h2, ⟨h3, h4⟩ | ⟨h3, h4⟩⟩
    · omega
    · omega
    · omega
  | clear =>
    refine ⟨_, rfl, ?_⟩
    simp [WithinCapacity, Touchscreen_demo.resetHistory, MAX_HISTORY_SIZE]

theorem applyOps_withinCapacity (c : LcdColors) (ops : List HistoryOp) (s : State)
    (h : WithinCapacity s) : ∃ s', applyOps c s ops = some s' ∧ WithinCapacity s' := by
  induction ops generalizing s with
  | nil => exact ⟨s, rfl, h⟩
  | cons op ops ih =>
    obtain ⟨s1, he, h1⟩ := applyOp_withinCapacity c s op h
    obtain ⟨s', he', h'⟩ := ih s1 h1
    exact ⟨s', by simp [applyOps, he, he'], h'⟩

theorem withinCapacity_lengths (s : State) (h : WithinCapacity s) :
    (undoList s).length ≤ 150 ∧ (redoList s).length ≤ 150 := by
  obtain ⟨hu0, hu1, hr0, hr1⟩ := h
  have h1 := stackView_length s.undoStack s.undoTop hu0
  have h2 := stackView_length s.redoStack s.redoTop hr0
  simp only [MAX_HISTORY_SIZE] at hu1 hr1
  simp only [undoList, redoList]
  omega

/-- Committing a list of actions to a history within capacity fills the undo stack up to
150 actions and drops the rest. -/
theorem commitAll_undoList (acts : List DrawingAction) (s : State) (h0 : -1 ≤ s.undoTop)
    (h1 : s.undoTop ≤ MAX_HISTORY_SIZE - 1) :
    ∃ s', commitAll s acts = some s' ∧ undoList s' = (undoList s ++ acts).take 150 := by
  induction acts generalizing s with
  | nil =>
    have hlen := stackView_length s.undoStack s.undoTop h0
    refine ⟨s, rfl, ?_⟩
    simp only [MAX_HISTORY_SIZE] at h1
    have : (undoList s).length ≤ 150 := by simp only [undoList]; omega
    simp [List.take_of_length_le this]
  | cons a as ih =>
    have hlen := stackView_length s.undoStack s.undoTop h0
    by_cases hroom : s.undoTop < MAX_HISTORY_SIZE - 1
    · have he := SaveToUndoStack_of_room s a.x a.y a.color h0 hroom
      have hp : undoList
          { s with
            undoStack := Function.update s.undoStack (s.undoTop + 1).toNat ⟨a.x, a.y, a.color⟩
            undoTop := s.undoTop + 1
            redoTop := -1 } = undoList s ++ [a] := by
        simp only [undoList]
        exact stackView_push s.undoStack s.undoTop a h0
      obtain ⟨s', he', hl⟩ := ih
        { s with
          undoStack := Function.update s.undoStack (s.undoTop + 1).toNat ⟨a.x, a.y, a.color⟩
          undoTop := s.undoTop + 1
          redoTop := -1 } (show -1 ≤ s.undoTop + 1 by omega)
        (show s.undoTop + 1 ≤ MAX_HISTORY_SIZE - 1 by omega)
      refine ⟨s', by simp [commitAll, he, he'], ?_⟩
      rw [hl, hp]
      simp
    · have he := SaveToUndoStack_of_full s a.x a.y a.color hroom
      obtain ⟨s', he', hl⟩ := ih s h0 h1
      refine ⟨s', by simp [commitAll, he, he'], ?_⟩
      rw [hl]
      simp only [MAX_HISTORY_SIZE] at hroom h1
      have hfull : (undoList s).length = 150 := by simp only [undoList]; omega
      rw [List.take_append_of_le_length (by omega), List.take_append_of_le_length (by omega)]

/-- One `Undo` with room on the redo stack, in terms of the two stack views. -/
theorem Undo_lists_of_room (c : LcdColors) (s : State) (h : WithinCapacity s)
    (hne : undoList s ≠ []) (hr : (redoList s).length < 150) :
    ∃ s' a, Undo c s = some s' ∧ WithinCapacity s' ∧ undoList s = undoList s' ++ [a] ∧
      redoList s' = redoList s ++ [a] := by
  obtain ⟨-, hu1, hr0, hr1⟩ := h
  have hu0 : 0 ≤ s.undoTop := stackView_ne_nil _ _ hne
  have hlen := stackView_length s.redoStack s.redoTop hr0
  have hr' : s.redoTop < MAX_HISTORY_SIZE - 1 := by
    simp only [redoList] at hr
    simp only [MAX_HISTORY_SIZE]
    omega
  refine ⟨_, s.undoStack s.undoTop.toNat, Undo_of_room c s hu0 hu1 hr0 hr', ?_, ?_, ?_⟩
  · simp only [WithinCapacity, MAX_HISTORY_SIZE] at *
    omega
  · simp only [undoList]
    exact stackView_pop s.undoStack s.undoTop hu0
  · simp only [redoList]
    exact stackView_push s.redoStack s.redoTop _ hr0

/-- One `Redo` with room on the undo stack, in terms of the two stack views. -/
theorem Redo_lists_of_room (s : State) (h : WithinCapacity s)
    (hne : redoList s ≠ []) (hu : (undoList s).length < 150) :
    ∃ s' a, Redo s = some s' ∧ WithinCapacity s' ∧ redoList s = redoList s' ++ [a] ∧
      undoList s' = undoList s ++ [a] := by
  obtain ⟨hu0, hu1, -, hr1⟩ := h
  have hr0 : 0 ≤ s.redoTop := stackView_ne_nil _ _ hne
  have hlen := stackView_length s.undoStack s.undoTop hu0
  have hu' : s.undoTop < MAX_HISTORY_SIZE - 1 := by
    simp only [undoList] at hu
    simp only [MAX_HISTORY_SIZE]
    omega
  refine ⟨_, s.redoStack s.redoTop.toNat, Redo_of_room s hr0 hr1 hu0 hu', ?_, ?_, ?_⟩
  · simp only [WithinCapacity, MAX_HISTORY_SIZE] at *
    omega
  · simp only [redoList]
    exact stackView_pop s.redoStack s.redoTop hr0
  · simp only [undoList]
    exact stackView_push s.undoStack s.undoTop _ hu0

/-- Undoing the last `V.length` actions moves them, newest first, onto the redo stack. -/
theorem repeatOp_Undo_lists (c : LcdColors) (V : List DrawingAction) (s : State)
    (U : List DrawingAction) (h : WithinCapacity s) (hU : undoList s = U ++ V)
    (hcap : (redoList s).length + V.length ≤ 150) :
    ∃ s1, repeatOp (Undo c) V.length s = some s1 ∧ WithinCapacity s1 ∧ undoList s1 = U ∧
      redoList s1 = redoList s ++ V.reverse := by
  induction V using List.reverseRecOn generalizing s with
  | nil => exact ⟨s, rfl, h, by simpa using hU, by simp⟩
  | append_singleton V x ih =>
    have hne : undoList s ≠ [] := by
      rw [hU]
      simp
    have hlt : (redoList s).length < 150 := by
      simp only [List.length_append, List.length_singleton] at hcap
      omega
    obtain ⟨s', a, he, hw, hpop, hpush⟩ := Undo_lists_of_room c s h hne hlt
    have hsplit : undoList s' ++ [a] = (U ++ V) ++ [x] := by
      rw [← hpop, hU, List.append_assoc]
    obtain ⟨hU', hax⟩ := List.append_inj' hsplit rfl
    have hax' : a = x := by simpa using hax
    obtain ⟨s1, he1, hw1, hu1, hr1⟩ := ih s' hw hU' (by
      rw [hpush]
      simp only [List.length_append, List.length_singleton] at hcap ⊢
      omega)
    refine ⟨s1, ?_, hw1, hu1, ?_⟩
    · simp [repeatOp, he, he1]
    · rw [hr1, hpush, hax']
      simp

/-- Redoing the top `W.length` actions of the redo stack moves them, top first, onto the
undo stack. -/
theorem repeatOp_Redo_lists (W : List DrawingAction) (s : State)
    (R : List DrawingAction) (h : WithinCapacity s) (hR : redoList s = R ++ W)
    (hcap : (undoList s).length + W.length ≤ 150) :
    ∃ s2, repeatOp Redo W.length s = some s2 ∧ WithinCapacity s2 ∧ redoList s2 = R ∧
      undoList s2 = undoList s ++ W.reverse := by
  induction W using List.reverseRecOn generalizing s with
  | nil => exact ⟨s, rfl, h, by simpa using hR, by simp⟩
  | append_singleton W x ih =>
    have hne : redoList s ≠ [] := by
      rw [hR]
      simp
    have hlt : (undoList s).length < 150 := by
      simp only [List.length_append, List.length_singleton] at hcap
      omega
    obtain ⟨s', a, he, hw, hpop, hpush⟩ := Redo_lists_of_room s h hne hlt
    have hsplit : redoList s' ++ [a] = (R ++ W) ++ [x] := by
      rw [← hpop, hR, List.append_assoc]
    obtain ⟨hR', hax⟩ := List.append_inj' hsplit rfl
    have hax' : a = x := by simpa using hax
    obtain ⟨s2, he2, hw2, hr2, hu2⟩ := ih s' hw hR' (by
      rw [hpush]
      simp only [List.length_append, List.length_singleton] at hcap ⊢
      omega)
    refine ⟨s2, ?_, hw2, hr2, ?_⟩
    · simp [repeatOp, he, he2]
    · rw [hu2, hpush, hax']
      simp

/-! ### The dispatcher, stage by stage -/

theorem LcdOnly.refl (s : State) : LcdOnly s s := ⟨[], by simp⟩

theorem LcdOnly.trans {s s1 s2 : State} (h1 : LcdOnly s s1) (h2 : LcdOnly s1 s2) :
    LcdOnly s s2 := by
  obtain ⟨l1, rfl⟩ := h1
  obtain ⟨l2, rfl⟩ := h2
  exact ⟨l1 ++ l2, by simp⟩

theorem LcdOnly.emit {s s1 : State} (h : LcdOnly s s1) (call : LcdCall) :
    LcdOnly s (emit s1 call) :=
  LcdOnly.trans h ⟨[call], rfl⟩

theorem DrawCanvas_lcdOnly (c : LcdColors) (s : State) :
    LcdOnly s (Touchscreen_DrawCanvas c s) :=
  ((LcdOnly.refl s).emit _).emit _

theorem DrawButton_Clear_lcdOnly (c : LcdColors) (s : State) :
    LcdOnly s (Touchscreen_DrawButton_Clear c s) :=
  (((((LcdOnly.refl s).emit _).emit _).emit _).emit _).emit _

theorem DrawButton_Undo_lcdOnly (c : LcdColors) (s : State) :
    LcdOnly s (Touchscreen_DrawButton_Undo c s) :=
  (((((LcdOnly.refl s).emit _).emit _).emit _).emit _).emit _

theorem DrawButton_Redo_lcdOnly (c : LcdColors) (s : State) :
    LcdOnly s (Touchscreen_DrawButton_Redo c s) :=
  (((((LcdOnly.refl s).emit _).emit _).emit _).emit _).emit _

theorem DrawButton_Eraser_lcdOnly (c : LcdColors) (selected : Bool) (s : State) :
    LcdOnly s (Touchscreen_DrawButton_Eraser c selected s) := by
  cases selected
  · exact ((((((LcdOnly.refl s).emit _).emit _).emit _).emit _).emit _).emit _
  · exact ((((((LcdOnly.refl s).emit _).emit _).emit _).emit _).emit _).emit _

theorem DrawBackground_Circles_loop_frame (c : LcdColors) (state : Nat) (n i : Nat) (s : State)
    (h : i + n ≤ NUM_COLORS) :
    ∃ s', Touchscreen_DrawBackground_Circles.loop c state n i s = some s' ∧ LcdOnly s s' := by
  induction n generalizing i s with
  | zero => exact ⟨s, rfl, LcdOnly.refl s⟩
  | succ n ih =>
    have hi : i < (COLOR_LIST c).length := by
      simp only [COLOR_LIST, List.length_cons, List.length_nil]
      simp only [NUM_COLORS] at h
      omega
    simp only [Touchscreen_DrawBackground_Circles.loop, List.getElem?_eq_getElem hi,
      Option.bind_eq_bind, Option.some_bind]
    by_cases hst : i = state
    · rw [if_pos hst]
      obtain ⟨s', he, hf⟩ := ih (i + 1)
        (emit (emit s (UTIL_LCD_FillCircle (CIRCLE_XPOS i) (CIRCLE_YPOS i) CIRCLE_RADIUS
          (COLOR_LIST c)[i]))
          (UTIL_LCD_FillCircle (CIRCLE_XPOS i) (CIRCLE_YPOS i) (CIRCLE_RADIUS - 2)
            c.UTIL_LCD_COLOR_WHITE)) (by omega)
      exact ⟨s', he, LcdOnly.trans (((LcdOnly.refl s).emit _).emit _) hf⟩
    · rw [if_neg hst]
      obtain ⟨s', he, hf⟩ := ih (i + 1)
        (emit s (UTIL_LCD_FillCircle (CIRCLE_XPOS i) (CIRCLE_YPOS i) CIRCLE_RADIUS
          (COLOR_LIST c)[i])) (by omega)
      exact ⟨s', he, LcdOnly.trans ((LcdOnly.refl s).emit _) hf⟩

/-- `Touchscreen_DrawBackground_Circles` returns and only appends to the LCD log. -/
theorem DrawBackground_Circles_frame (c : LcdColors) (state : Nat) (s : State) :
    ∃ s', Touchscreen_DrawBackground_Circles c state s = some s' ∧ LcdOnly s s' := by
  obtain ⟨s1, he, hf⟩ := DrawBackground_Circles_loop_frame c state NUM_COLORS 0 s (by omega)
  simp only [Touchscreen_DrawBackground_Circles, he, Option.bind_eq_bind, Option.some_bind]
  by_cases hst : state = NUM_COLORS
  · rw [if_pos hst]
    exact ⟨_, rfl, LcdOnly.trans hf (DrawButton_Eraser_lcdOnly c true s1)⟩
  · rw [if_neg hst]
    exact ⟨_, rfl, LcdOnly.trans hf (DrawButton_Eraser_lcdOnly c false s1)⟩

/-- The palette loop returns; either no swatch in its range is hit and the state is
unchanged, or the first swatch hit is selected and the palette is redrawn. -/
theorem paletteLoop_spec (c : LcdColors) (x1 y1 : Nat) (n i : Nat) (s : State)
    (h : i + n ≤ NUM_COLORS) :
    ∃ s', Touchscreen_demo.paletteLoop c x1 y1 n i s = some s' ∧
      (((∀ j, i ≤ j → j < i + n → ¬ paletteHit j x1 y1) ∧ s' = s) ∨
        (∃ j, i ≤ j ∧ j < i + n ∧ paletteHit j x1 y1 ∧
          (∀ j', i ≤ j' → j' < j → ¬ paletteHit j' x1 y1) ∧
          LcdOnly { s with selectedColorIndex := j } s')) := by
  induction n generalizing i with
  | zero =>
    refine ⟨s, rfl, Or.inl ⟨?_, rfl⟩⟩
    intro j h1 h2
    omega
  | succ n ih =>
    by_cases hit : paletteHit i x1 y1
    · obtain ⟨s', he, hf⟩ := DrawBackground_Circles_frame c i { s with selectedColorIndex := i }
      refine ⟨s', by simp [Touchscreen_demo.paletteLoop, hit, he], Or.inr ⟨i, le_refl i, by omega,
        hit, ?_, hf⟩⟩
      intro j' h1 h2
      omega
    · obtain ⟨s', he, hcase⟩ := ih (i + 1) (by omega)
      refine ⟨s', by simp [Touchscreen_demo.paletteLoop, hit, he], ?_⟩
      rcases hcase with ⟨hno, rfl⟩ | ⟨j, hj1, hj2, hjhit, hfirst, hf⟩
      · refine Or.inl ⟨?_, rfl⟩
        intro j h1 h2
        by_cases hji : j = i
        · rw [hji]
          exact hit
        · exact hno j (by omega) (by omega)
      · refine Or.inr ⟨j, by omega, by omega, hjhit, ?_, hf⟩
        intro j' h1 h2
        by_cases hji : j' = i
        · rw [hji]
          exact hit
        · exact hfirst j' (by omega) h2

theorem LcdOnly.keepsInv {s s' : State} (h : LcdOnly s s') (hi : SessionInv s) :
    SessionInv s' := by
  obtain ⟨l, rfl⟩ := h
  exact hi

theorem paletteLoop_sessionInv (c : LcdColors) (x1 y1 : Nat) (s : State) (hi : SessionInv s) :
    ∃ s', Touchscreen_demo.paletteLoop c x1 y1 NUM_COLORS 0 s = some s' ∧ SessionInv s' := by
  obtain ⟨s', he, hcase⟩ := paletteLoop_spec c x1 y1 NUM_COLORS 0 s (by omega)
  refine ⟨s', he, ?_⟩
  rcases hcase with ⟨-, rfl⟩ | ⟨j, -, hj, -, -, hf⟩
  · exact hi
  · apply hf.keepsInv
    obtain ⟨h1, h2, h3, -⟩ := hi
    exact ⟨h1, h2, h3, by simp only; omega⟩

/-- The clear branch returns: it only draws and then resets the two tops. -/
theorem clearBranch_spec (c : LcdColors) (s : State) :
    ∃ s1, LcdOnly s s1 ∧
      Touchscreen_demo.clearBranch c s = some (Touchscreen_demo.resetHistory s1) := by
  obtain ⟨s1, he, hf⟩ := DrawBackground_Circles_frame c
    (Touchscreen_DrawCanvas c (emit s (UTIL_LCD_Clear c.UTIL_LCD_COLOR_WHITE))).selectedColorIndex
    (Touchscreen_DrawCanvas c (emit s (UTIL_LCD_Clear c.UTIL_LCD_COLOR_WHITE)))
  refine ⟨Touchscreen_DrawButton_Redo c (Touchscreen_DrawButton_Undo c
      (Touchscreen_DrawButton_Eraser c false (Touchscreen_DrawButton_Clear c s1))), ?_, ?_⟩
  · have h1 : LcdOnly s (emit s (UTIL_LCD_Clear c.UTIL_LCD_COLOR_WHITE)) :=
      (LcdOnly.refl s).emit _
    have h2 := LcdOnly.trans (LcdOnly.trans h1 (DrawCanvas_lcdOnly c _)) hf
    have h3 := LcdOnly.trans h2 (DrawButton_Clear_lcdOnly c s1)
    have h4 := LcdOnly.trans h3 (DrawButton_Eraser_lcdOnly c false _)
    have h5 := LcdOnly.trans h4 (DrawButton_Undo_lcdOnly c _)
    exact LcdOnly.trans h5 (DrawButton_Redo_lcdOnly c _)
  · simp only [Touchscreen_demo.clearBranch, he, Option.bind_eq_bind, Option.some_bind]

theorem resetHistory_sessionInv (s : State) (h : s.selectedColorIndex ≤ NUM_COLORS) :
    SessionInv (Touchscreen_demo.resetHistory s) := by
  refine ⟨?_, ?_, ?_, h⟩ <;> simp [Touchscreen_demo.resetHistory, MAX_HISTORY_SIZE]

theorem clearBranch_sessionInv (c : LcdColors) (s : State) (hi : SessionInv s) :
    ∃ s', Touchscreen_demo.clearBranch c s = some s' ∧ SessionInv s' := by
  obtain ⟨s1, hf, he⟩ := clearBranch_spec c s
  exact ⟨_, he, resetHistory_sessionInv s1 (hf.keepsInv hi).2.2.2⟩

theorem eraserBranch_sessionInv (c : LcdColors) (s : State) (hi : SessionInv s) :
    ∃ s', Touchscreen_DrawBackground_Circles c NUM_COLORS
        { s with selectedColorIndex := NUM_COLORS } = some s' ∧ SessionInv s' := by
  obtain ⟨s', he, hf⟩ := DrawBackground_Circles_frame c NUM_COLORS
    { s with selectedColorIndex := NUM_COLORS }
  refine ⟨s', he, hf.keepsInv ?_⟩
  obtain ⟨h1, h2, h3, -⟩ := hi
  exact ⟨h1, h2, h3, le_refl _⟩

theorem Undo_sessionInv (c : LcdColors) (s : State) (hi : SessionInv s) :
    ∃ s', Undo c s = some s' ∧ SessionInv s' := by
  obtain ⟨h1, h2, h3, h4⟩ := hi
  obtain ⟨s', he, hsel, ht⟩ := Undo_tops c s (by omega) h2
  refine ⟨s', he, ?_⟩
  simp only [SessionInv, MAX_HISTORY_SIZE, hsel] at *
  rcases ht with ⟨-, rfl⟩ | ⟨k1, k2, ⟨k3, k4⟩ | ⟨k3, k4⟩⟩
  · exact ⟨h1, h2, h3, h4⟩
  · exact ⟨by omega, by omega, by omega, h4⟩
  · exact ⟨by omega, by omega, by omega, h4⟩

theorem Redo_sessionInv (s : State) (hi : SessionInv s) :
    ∃ s', Redo s = some s' ∧ SessionInv s' := by
  obtain ⟨h1, h2, h3, h4⟩ := hi
  obtain ⟨s', he, hsel, ht⟩ := Redo_tops s (by omega) h1
  refine ⟨s', he, ?_⟩
  simp only [SessionInv, MAX_HISTORY_SIZE, hsel] at *
  rcases ht with ⟨-, rfl⟩ | ⟨k1, k2, ⟨k3, k4⟩ | ⟨k3, k4⟩⟩
  · exact ⟨h1, h2, h3, h4⟩
  · exact ⟨by omega, by omega, by omega, h4⟩
  · exact ⟨by omega, by omega, by omega, h4⟩

/-- `SaveToUndoStack` on a state satisfying the loop invariant returns, keeps the invariant
and leaves the redo stack empty: either it resets `redoTop`, or the undo stack is full and
then the invariant says that the redo stack was already empty. -/
theorem SaveToUndoStack_sessionInv (s : State) (x y color : Nat) (hi : SessionInv s) :
    ∃ s', SaveToUndoStack s x y color = some s' ∧ SessionInv s' ∧ s'.redoTop = -1 := by
  obtain ⟨h1, h2, h3, h4⟩ := hi
  obtain ⟨s', he, hsel, ht⟩ := SaveToUndoStack_tops s x y color h1
  refine ⟨s', he, ?_⟩
  simp only [SessionInv, MAX_HISTORY_SIZE, hsel] at *
  rcases ht with ⟨k1, k2, k3⟩ | ⟨k1, rfl⟩
  · exact ⟨⟨by omega, by omega, by omega, h4⟩, k3⟩
  · exact ⟨⟨h1, h2, h3, h4⟩, by omega⟩

theorem canvasBranch_sessionInv (c : LcdColors) (x1 y1 : Nat) (s : State) (hi : SessionInv s) :
    ∃ s', Touchscreen_demo.canvasBranch c x1 y1 s = some s' ∧ SessionInv s' ∧
      s'.redoTop = -1 := by
  by_cases hsel : s.selectedColorIndex < NUM_COLORS
  · have hlt : s.selectedColorIndex < (COLOR_LIST c).length := by
      simpa [COLOR_LIST, NUM_COLORS] using hsel
    simp only [Touchscreen_demo.canvasBranch, hsel, if_true, List.getElem?_eq_getElem hlt,
      Option.bind_eq_bind, Option.some_bind]
    exact SaveToUndoStack_sessionInv _ _ _ _ (((LcdOnly.refl s).emit _).keepsInv hi)
  · have heq : s.selectedColorIndex = NUM_COLORS := by
      have := hi.2.2.2
      omega
    simp only [Touchscreen_demo.canvasBranch, hsel, if_false, heq, if_true]
    exact SaveToUndoStack_sessionInv _ _ _ _ (((LcdOnly.refl s).emit _).keepsInv hi)

/-- One dispatched touch sample: the dispatcher returns, keeps the loop invariant, and a
sample in the canvas rectangle leaves `redoTop = -1`. -/
theorem onTouch_sessionInv (c : LcdColors) (s : State) (x1 y1 : Nat) (hi : SessionInv s) :
    ∃ s', Touchscreen_demo.onTouch c s x1 y1 = some s' ∧ SessionInv s' ∧
      (canvasHit x1 y1 → s'.redoTop = -1) := by
  obtain ⟨s1, e1, i1⟩ := paletteLoop_sessionInv c x1 y1 s hi
  obtain ⟨s2, e2, i2⟩ : ∃ s2, (if clearHit x1 y1 then Touchscreen_demo.clearBranch c s1
      else some s1) = some s2 ∧ SessionInv s2 := by
    by_cases hc : clearHit x1 y1
    · rw [if_pos hc]
      exact clearBranch_sessionInv c s1 i1
    · rw [if_neg hc]
      exact ⟨s1, rfl, i1⟩
  obtain ⟨s3, e3, i3⟩ : ∃ s3, (if eraserHit x1 y1 then
      Touchscreen_DrawBackground_Circles c NUM_COLORS { s2 with selectedColorIndex := NUM_COLORS }
      else some s2) = some s3 ∧ SessionInv s3 := by
    by_cases hc : eraserHit x1 y1
    · rw [if_pos hc]
      exact eraserBranch_sessionInv c s2 i2
    · rw [if_neg hc]
      exact ⟨s2, rfl, i2⟩
  obtain ⟨s4, e4, i4⟩ : ∃ s4, (if undoHit x1 y1 then Undo c s3 else some s3) = some s4 ∧
      SessionInv s4 := by
    by_cases hc : undoHit x1 y1
    · rw [if_pos hc]
      exact Undo_sessionInv c s3 i3
    · rw [if_neg hc]
      exact ⟨s3, rfl, i3⟩
  obtain ⟨s5, e5, i5⟩ : ∃ s5, (if redoHit x1 y1 then Redo s4 else some s4) = some s5 ∧
      SessionInv s5 := by
    by_cases hc : redoHit x1 y1
    · rw [if_pos hc]
      exact Redo_sessionInv s4 i4
    · rw [if_neg hc]
      exact ⟨s4, rfl, i4⟩
  simp only [Touchscreen_demo.onTouch, e1, e2, e3, e4, e5, Option.bind_eq_bind,
    Option.some_bind]
  by_cases hc : canvasHit x1 y1
  · rw [if_pos hc]
    obtain ⟨s', e6, i6, hr⟩ := canvasBranch_sessionInv c x1 y1 s5 i5
    exact ⟨s', e6, i6, fun _ => hr⟩
  · rw [if_neg hc]
    exact ⟨s5, rfl, i5, fun h => absurd h hc⟩

theorem setup_eq_bootState (c : LcdColors) :
    Touchscreen_demo.setup c = some (bootState c) ∧ LcdOnly initialState (bootState c) := by
  obtain ⟨s1, he, hf⟩ := DrawBackground_Circles_frame c
    (Touchscreen_DrawCanvas c
      (emit initialState (UTIL_LCD_Clear c.UTIL_LCD_COLOR_WHITE))).selectedColorIndex
    (Touchscreen_DrawCanvas c (emit initialState (UTIL_LCD_Clear c.UTIL_LCD_COLOR_WHITE)))
  have hs : Touchscreen_demo.setup c = some (Touchscreen_DrawButton_Redo c
      (Touchscreen_DrawButton_Undo c (Touchscreen_DrawButton_Eraser c false
        (Touchscreen_DrawButton_Clear c s1)))) := by
    simp only [Touchscreen_demo.setup, he, Option.bind_eq_bind, Option.some_bind]
  refine ⟨by simp [bootState, hs], ?_⟩
  simp only [bootState, hs, Option.getD_some]
  have h1 : LcdOnly initialState (emit initialState (UTIL_LCD_Clear c.UTIL_LCD_COLOR_WHITE)) :=
    (LcdOnly.refl initialState).emit _
  have h2 := LcdOnly.trans (LcdOnly.trans h1 (DrawCanvas_lcdOnly c _)) hf
  have h3 := LcdOnly.trans h2 (DrawButton_Clear_lcdOnly c s1)
  have h4 := LcdOnly.trans h3 (DrawButton_Eraser_lcdOnly c false _)
  have h5 := LcdOnly.trans h4 (DrawButton_Undo_lcdOnly c _)
  exact LcdOnly.trans h5 (DrawButton_Redo_lcdOnly c _)

theorem run_sessionInv (c : LcdColors) (samples : List (Nat × Nat)) (s : State)
    (hi : SessionInv s) : ∃ s', Touchscreen_demo.run c s samples = some s' ∧ SessionInv s' := by
  induction samples generalizing s with
  | nil => exact ⟨s, rfl, hi⟩
  | cons p ps ih =>
    obtain ⟨s1, e1, i1, -⟩ := onTouch_sessionInv c s p.1 p.2 hi
    obtain ⟨s', e', i'⟩ := ih s1 i1
    exact ⟨s', by simp [Touchscreen_demo.run, e1, e'], i'⟩

/-- Every reachable session state satisfies the loop invariant. -/
theorem Reachable.loopInv {c : LcdColors} {s : State} (h : Reachable c s) :
    SessionInv s := by
  obtain ⟨s0, samples, h0, hrun⟩ := h
  have hb := setup_eq_bootState c
  rw [hb.1] at h0
  have i0 : SessionInv s0 := by
    rw [← Option.some.inj h0]
    exact hb.2.keepsInv (by decide)
  obtain ⟨s', e', i'⟩ := run_sessionInv c samples s0 i0
  rw [hrun] at e'
  rw [Option.some.inj e']
  exact i'

theorem reachable_bootState (c : LcdColors) : Reachable c (bootState c) :=
  ⟨bootState c, [], (setup_eq_bootState c).1, rfl⟩

theorem stackView_eq_nil (a : Nat → DrawingAction) (top : Int) (h : stackView a top = []) :
    top < 0 := by
  have hl := congrArg List.length h
  simp only [stackView, List.length_map, List.length_range, List.length_nil] at hl
  omega

/-- A sample inside the clear button's hit zone passes none of the other region tests. -/
theorem clearHit_exclusive (x1 y1 : Nat) (h : clearHit x1 y1) :
    (∀ i, ¬ paletteHit i x1 y1) ∧ ¬ eraserHit x1 y1 ∧ ¬ undoHit x1 y1 ∧ ¬ redoHit x1 y1 ∧
      ¬ canvasHit x1 y1 := by
  simp only [clearHit, CLEAR_BUTTON_XPOS, CLEAR_BUTTON_YPOS, CLEAR_BUTTON_RADIUS] at h
  refine ⟨?_, ?_, ?_, ?_, ?_⟩
  · intro i hp
    simp only [paletteHit, CIRCLE_XPOS, CIRCLE_RADIUS, CIRCLE_SPACING] at hp
    omega
  · intro hp
    simp only [eraserHit, ERASER_XPOS, ERASER_YPOS, ERASER_RADIUS] at hp
    omega
  · intro hp
    simp only [undoHit, UNDO_BUTTON_XPOS, UNDO_BUTTON_YPOS, UNDO_BUTTON_RADIUS] at hp
    omega
  · intro hp
    simp only [redoHit, REDO_BUTTON_XPOS, REDO_BUTTON_YPOS, REDO_BUTTON_RADIUS] at hp
    omega
  · intro hp
    simp only [canvasHit, CANVAS_XPOS, CANVAS_YPOS, CANVAS_WIDTH, CANVAS_HEIGHT] at hp
    omega

/-- The palette loop leaves the state alone when no swatch is hit. -/
theorem paletteLoop_of_no_hit (c : LcdColors) (x1 y1 : Nat) (s : State)
    (h : ∀ i, ¬ paletteHit i x1 y1) :
    Touchscreen_demo.paletteLoop c x1 y1 NUM_COLORS 0 s = some s := by
  obtain ⟨s', he, hcase⟩ := paletteLoop_spec c x1 y1 NUM_COLORS 0 s (by omega)
  rcases hcase with ⟨-, rfl⟩ | ⟨j, -, -, hj, -, -⟩
  · exact he
  · exact absurd hj (h j)

/-! ### The region tests in coordinates -/

theorem paletteHit_iff (i x1 y1 : Nat) :
    paletteHit i x1 y1 ↔ 10 < x1 ∧ x1 < 40 ∧ 40 * i + 45 < y1 ∧ y1 < 40 * i + 75 := by
  simp only [paletteHit, CIRCLE_XPOS, CIRCLE_YPOS, CIRCLE_RADIUS, CIRCLE_SPACING]
  omega

theorem clearHit_iff (x1 y1 : Nat) :
    clearHit x1 y1 ↔ 412 < x1 ∧ x1 < 462 ∧ 5 < y1 ∧ y1 < 55 := by
  simp only [clearHit, CLEAR_BUTTON_XPOS, CLEAR_BUTTON_YPOS, CLEAR_BUTTON_RADIUS]
  omega

theorem eraserHit_iff (x1 y1 : Nat) :
    eraserHit x1 y1 ↔ 412 < x1 ∧ x1 < 462 ∧ 215 < y1 ∧ y1 < 265 := by
  simp only [eraserHit, ERASER_XPOS, ERASER_YPOS, ERASER_RADIUS]
  omega

theorem undoHit_iff (x1 y1 : Nat) :
    undoHit x1 y1 ↔ 412 < x1 ∧ x1 < 462 ∧ 75 < y1 ∧ y1 < 125 := by
  simp only [undoHit, UNDO_BUTTON_XPOS, UNDO_BUTTON_YPOS, UNDO_BUTTON_RADIUS]
  omega

theorem redoHit_iff (x1 y1 : Nat) :
    redoHit x1 y1 ↔ 412 < x1 ∧ x1 < 462 ∧ 145 < y1 ∧ y1 < 195 := by
  simp only [redoHit, REDO_BUTTON_XPOS, REDO_BUTTON_YPOS, REDO_BUTTON_RADIUS]
  omega

theorem canvasHit_iff (x1 y1 : Nat) :
    canvasHit x1 y1 ↔ 50 ≤ x1 ∧ x1 ≤ 400 ∧ 15 ≤ y1 ∧ y1 ≤ 257 := by
  simp only [canvasHit, CANVAS_XPOS, CANVAS_YPOS, CANVAS_WIDTH, CANVAS_HEIGHT]
  omega

/-- The ten zones tested by the dispatcher are pairwise disjoint. -/
theorem regionHit_unique (x1 y1 : Nat) (r1 r2 : Region) (h1 : regionHit x1 y1 r1)
    (h2 : regionHit x1 y1 r2) : r1 = r2 := by
  cases r1 <;> cases r2 <;>
    simp only [regionHit, paletteHit_iff, clearHit_iff, eraserHit_iff, undoHit_iff, redoHit_iff,
      canvasHit_iff, NUM_COLORS] at h1 h2 <;>
    first
      | rfl
      | (exfalso; omega)
      | (congr 1; omega)

/-- The palette loop, with its five iterations written out. -/
theorem paletteLoop_unrolled (c : LcdColors) (x1 y1 : Nat) (s : State) :
    Touchscreen_demo.paletteLoop c x1 y1 NUM_COLORS 0 s =
      if paletteHit 0 x1 y1 then
        Touchscreen_DrawBackground_Circles c 0 { s with selectedColorIndex := 0 }
      else if paletteHit 1 x1 y1 then
        Touchscreen_DrawBackground_Circles c 1 { s with selectedColorIndex := 1 }
      else if paletteHit 2 x1 y1 then
        Touchscreen_DrawBackground_Circles c 2 { s with selectedColorIndex := 2 }
      else if paletteHit 3 x1 y1 then
        Touchscreen_DrawBackground_Circles c 3 { s with selectedColorIndex := 3 }
      else if paletteHit 4 x1 y1 then
        Touchscreen_DrawBackground_Circles c 4 { s with selectedColorIndex := 4 }
      else some s := by
  rfl

theorem paletteHit_excludes (i x1 y1 : Nat) (h : paletteHit i x1 y1) :
    ¬ clearHit x1 y1 ∧ ¬ eraserHit x1 y1 ∧ ¬ undoHit x1 y1 ∧ ¬ redoHit x1 y1 ∧
      ¬ canvasHit x1 y1 := by
  simp only [paletteHit_iff, clearHit_iff, eraserHit_iff, undoHit_iff, redoHit_iff,
    canvasHit_iff] at *
  omega

theorem eraserHit_excludes (x1 y1 : Nat) (h : eraserHit x1 y1) :
    (∀ i, ¬ paletteHit i x1 y1) ∧ ¬ clearHit x1 y1 ∧ ¬ undoHit x1 y1 ∧ ¬ redoHit x1 y1 ∧
      ¬ canvasHit x1 y1 := by
  simp only [paletteHit_iff, clearHit_iff, eraserHit_iff, undoHit_iff, redoHit_iff,
    canvasHit_iff] at *
  refine ⟨fun i => ?_, ?_, ?_, ?_, ?_⟩ <;> omega

theorem undoHit_excludes (x1 y1 : Nat) (h : undoHit x1 y1) :
    (∀ i, ¬ paletteHit i x1 y1) ∧ ¬ clearHit x1 y1 ∧ ¬ eraserHit x1 y1 ∧ ¬ redoHit x1 y1 ∧
      ¬ canvasHit x1 y1 := by
  simp only [paletteHit_iff, clearHit_iff, eraserHit_iff, undoHit_iff, redoHit_iff,
    canvasHit_iff] at *
  refine ⟨fun i => ?_, ?_, ?_, ?_, ?_⟩ <;> omega

theorem redoHit_excludes (x1 y1 : Nat) (h : redoHit x1 y1) :
    (∀ i, ¬ paletteHit i x1 y1) ∧ ¬ clearHit x1 y1 ∧ ¬ eraserHit x1 y1 ∧ ¬ undoHit x1 y1 ∧
      ¬ canvasHit x1 y1 := by
  simp only [paletteHit_iff, clearHit_iff, eraserHit_iff, undoHit_iff, redoHit_iff,
    canvasHit_iff] at *
  refine ⟨fun i => ?_, ?_, ?_, ?_, ?_⟩ <;> omega

theorem canvasHit_excludes (x1 y1 : Nat) (h : canvasHit x1 y1) :
    (∀ i, ¬ paletteHit i x1 y1) ∧ ¬ clearHit x1 y1 ∧ ¬ eraserHit x1 y1 ∧ ¬ undoHit x1 y1 ∧
      ¬ redoHit x1 y1 := by
  simp only [paletteHit_iff, clearHit_iff, eraserHit_iff, undoHit_iff, redoHit_iff,
    canvasHit_iff] at *
  refine ⟨fun i => ?_, ?_, ?_, ?_, ?_⟩ <;> omega

/-- With the compiled geometry the dispatcher does what the first region containing the
point prescribes, and nothing else. -/
theorem onTouch_eq_regionAction (c : LcdColors) (s : State) (x1 y1 : Nat) :
    Touchscreen_demo.onTouch c s x1 y1 = regionAction c s x1 y1 (resolve x1 y1) := by
  simp only [Touchscreen_demo.onTouch, paletteLoop_unrolled, resolve, Option.bind_eq_bind]
  by_cases h0 : paletteHit 0 x1 y1
  · obtain ⟨k1, k2, k3, k4, k5⟩ := paletteHit_excludes 0 x1 y1 h0
    simp [h0, k1, k2, k3, k4, k5, regionAction]
  by_cases h1 : paletteHit 1 x1 y1
  · obtain ⟨k1, k2, k3, k4, k5⟩ := paletteHit_excludes 1 x1 y1 h1
    simp [h0, h1, k1, k2, k3, k4, k5, regionAction]
  by_cases h2 : paletteHit 2 x1 y1
  · obtain ⟨k1, k2, k3, k4, k5⟩ := paletteHit_excludes 2 x1 y1 h2
    simp [h0, h1, h2, k1, k2, k3, k4, k5, regionAction]
  by_cases h3 : paletteHit 3 x1 y1
  · obtain ⟨k1, k2, k3, k4, k5⟩ := paletteHit_excludes 3 x1 y1 h3
    simp [h0, h1, h2, h3, k1, k2, k3, k4, k5, regionAction]
  by_cases h4 : paletteHit 4 x1 y1
  · obtain ⟨k1, k2, k3, k4, k5⟩ := paletteHit_excludes 4 x1 y1 h4
    simp [h0, h1, h2, h3, h4, k1, k2, k3, k4, k5, regionAction]
  by_cases h5 : clearHit x1 y1
  · obtain ⟨-, k2, k3, k4, k5⟩ := clearHit_exclusive x1 y1 h5
    simp [h0, h1, h2, h3, h4, h5, k2, k3, k4, k5, regionAction]
  by_cases h6 : eraserHit x1 y1
  · obtain ⟨-, -, k3, k4, k5⟩ := eraserHit_excludes x1 y1 h6
    simp [h0, h1, h2, h3, h4, h5, h6, k3, k4, k5, regionAction]
  by_cases h7 : undoHit x1 y1
  · obtain ⟨-, -, -, k4, k5⟩ := undoHit_excludes x1 y1 h7
    simp [h0, h1, h2, h3, h4, h5, h6, h7, k4, k5, regionAction]
  by_cases h8 : redoHit x1 y1
  · obtain ⟨-, -, -, -, k5⟩ := redoHit_excludes x1 y1 h8
    simp [h0, h1, h2, h3, h4, h5, h6, h7, h8, k5, regionAction]
  by_cases h9 : canvasHit x1 y1
  · simp [h0, h1, h2, h3, h4, h5, h6, h7, h8, h9, regionAction]
  · simp [h0, h1, h2, h3, h4, h5, h6, h7, h8, h9, regionAction]

theorem regionHit_of_resolve (x1 y1 : Nat) (r : Region) (h : resolve x1 y1 = some r) :
    regionHit x1 y1 r := by
  simp only [resolve] at h
  split_ifs at h with h0 h1 h2 h3 h4 h5 h6 h7 h8 h9
  · cases h
    exact ⟨by decide, h0⟩
  · cases h
    exact ⟨by decide, h1⟩
  · cases h
    exact ⟨by decide, h2⟩
  · cases h
    exact ⟨by decide, h3⟩
  · cases h
    exact ⟨by decide, h4⟩
  · cases h
    exact h5
  · cases h
    exact h6
  · cases h
    exact h7
  · cases h
    exact h8
  · cases h
    exact h9

theorem no_regionHit_of_resolve (x1 y1 : Nat) (h : resolve x1 y1 = none) (r : Region) :
    ¬ regionHit x1 y1 r := by
  simp only [resolve] at h
  split_ifs at h with h0 h1 h2 h3 h4 h5 h6 h7 h8 h9
  intro hr
  cases r with
  | palette i =>
    obtain ⟨hi, hp⟩ := hr
    simp only [NUM_COLORS] at hi
    have : i = 0 ∨ i = 1 ∨ i = 2 ∨ i = 3 ∨ i = 4 := by omega
    rcases this with rfl | rfl | rfl | rfl | rfl
    · exact h0 hp
    · exact h1 hp
    · exact h2 hp
    · exact h3 hp
    · exact h4 hp
  | clear => exact h5 hr
  | eraser => exact h6 hr
  | undo => exact h7 hr
  | redo => exact h8 hr
  | canvas => exact h9 hr

/-- The resolved region is the one whose test the point passes. -/
theorem resolve_eq_some_iff (x1 y1 : Nat) (r : Region) :
    resolve x1 y1 = some r ↔ regionHit x1 y1 r := by
  constructor
  · exact regionHit_of_resolve x1 y1 r
  · intro h
    cases hres : resolve x1 y1 with
    | some r2 =>
      rw [regionHit_unique x1 y1 r2 r (regionHit_of_resolve x1 y1 r2 hres) h]
    | none => exact absurd h (no_regionHit_of_resolve x1 y1 hres r)

theorem resolve_eq_none_iff (x1 y1 : Nat) :
    resolve x1 y1 = none ↔ ∀ r, ¬ regionHit x1 y1 r := by
  constructor
  · exact no_regionHit_of_resolve x1 y1
  · intro h
    cases hres : resolve x1 y1 with
    | none => rfl
    | some r => exact absurd (regionHit_of_resolve x1 y1 r hres) (h r)

/-! ### The canvas branch -/

theorem COLOR_LIST_getElem? (c : LcdColors) (i : Nat) (h : i < NUM_COLORS) :
    ∃ col, (COLOR_LIST c)[i]? = some col := by
  have hlt : i < (COLOR_LIST c).length := by simpa [COLOR_LIST, NUM_COLORS] using h
  exact ⟨_, List.getElem?_eq_getElem hlt⟩

/-- The canvas branch with a palette colour selected. -/
theorem canvasBranch_of_colour (c : LcdColors) (x1 y1 : Nat) (s : State) (col : Nat)
    (hsel : s.selectedColorIndex < NUM_COLORS)
    (hcol : (COLOR_LIST c)[s.selectedColorIndex]? = some col) :
    Touchscreen_demo.canvasBranch c x1 y1 s =
      SaveToUndoStack (emit s (UTIL_LCD_FillCircle x1 y1 5 col)) x1 y1 col := by
  simp only [Touchscreen_demo.canvasBranch, hsel, if_true, hcol, Option.bind_eq_bind,
    Option.some_bind]

/-- The canvas branch with the eraser selected. -/
theorem canvasBranch_of_eraser (c : LcdColors) (x1 y1 : Nat) (s : State)
    (hsel : s.selectedColorIndex = NUM_COLORS) :
    Touchscreen_demo.canvasBranch c x1 y1 s =
      SaveToUndoStack (emit s (UTIL_LCD_FillCircle x1 y1 10 c.UTIL_LCD_COLOR_WHITE)) x1 y1
        c.UTIL_LCD_COLOR_WHITE := by
  have hn : ¬ s.selectedColorIndex < NUM_COLORS := by omega
  unfold Touchscreen_demo.canvasBranch
  rw [if_neg hn, if_pos hsel]

/-- Drawing a dot and committing it when the undo stack has room. -/
theorem draw_and_commit_of_room (s : State) (call : LcdCall) (x y color : Nat)
    (h0 : -1 ≤ s.undoTop) (h1 : s.undoTop < MAX_HISTORY_SIZE - 1) :
    ∃ s', SaveToUndoStack (emit s call) x y color = some s' ∧
      undoList s' = undoList s ++ [⟨x, y, color⟩] ∧ redoList s' = [] ∧
      s'.lcd = s.lcd ++ [call] ∧ s'.selectedColorIndex = s.selectedColorIndex := by
  refine ⟨_, SaveToUndoStack_of_room (emit s call) x y color h0 h1, ?_, ?_, rfl, rfl⟩
  · simp only [undoList, emit]
    exact stackView_push s.undoStack s.undoTop ⟨x, y, color⟩ h0
  · simp only [redoList]
    exact stackView_neg_one _

/-- Drawing a dot and committing it when the undo stack is full: only the dot is drawn. -/
theorem draw_and_commit_of_full (s : State) (call : LcdCall) (x y color : Nat)
    (h : ¬ s.undoTop < MAX_HISTORY_SIZE - 1) :
    SaveToUndoStack (emit s call) x y color = some (emit s call) :=
  SaveToUndoStack_of_full (emit s call) x y color h

theorem onTouch_of_canvasHit (c : LcdColors) (s : State) (x1 y1 : Nat) (h : canvasHit x1 y1) :
    Touchscreen_demo.onTouch c s x1 y1 = Touchscreen_demo.canvasBranch c x1 y1 s := by
  rw [onTouch_eq_regionAction, (resolve_eq_some_iff x1 y1 Region.canvas).mpr h]
  rfl

theorem onTouch_of_paletteHit (c : LcdColors) (s : State) (i x1 y1 : Nat) (hi : i < NUM_COLORS)
    (h : paletteHit i x1 y1) :
    Touchscreen_demo.onTouch c s x1 y1 =
      Touchscreen_DrawBackground_Circles c i { s with selectedColorIndex := i } := by
  rw [onTouch_eq_regionAction, (resolve_eq_some_iff x1 y1 (Region.palette i)).mpr ⟨hi, h⟩]
  rfl

theorem onTouch_of_eraserHit (c : LcdColors) (s : State) (x1 y1 : Nat) (h : eraserHit x1 y1) :
    Touchscreen_demo.onTouch c s x1 y1 =
      Touchscreen_DrawBackground_Circles c NUM_COLORS
        { s with selectedColorIndex := NUM_COLORS } := by
  rw [onTouch_eq_regionAction, (resolve_eq_some_iff x1 y1 Region.eraser).mpr h]
  rfl

/-! ### The circular zones -/

/-- The open disc lies inside the open bounding square. -/
theorem inCircle_imp_square (cx cy r : Int) (x1 y1 : Nat) (hr : 0 ≤ r)
    (h : inCircle cx cy r x1 y1) : |(x1 : Int) - cx| < r ∧ |(y1 : Int) - cy| < r := by
  unfold inCircle at h
  constructor
  · rw [abs_lt]
    constructor
    · by_contra hc
      push_neg at hc
      nlinarith [mul_self_nonneg ((y1 : Int) - cy)]
    · by_contra hc
      push_neg at hc
      nlinarith [mul_self_nonneg ((y1 : Int) - cy)]
  · rw [abs_lt]
    constructor
    · by_contra hc
      push_neg at hc
      nlinarith [mul_self_nonneg ((x1 : Int) - cx)]
    · by_contra hc
      push_neg at hc
      nlinarith [mul_self_nonneg ((x1 : Int) - cx)]

theorem paletteHit_iff_abs (i x1 y1 : Nat) :
    paletteHit i x1 y1 ↔
      |(x1 : Int) - CIRCLE_XPOS i| < CIRCLE_RADIUS ∧ |(y1 : Int) - CIRCLE_YPOS i| < CIRCLE_RADIUS := by
  simp only [paletteHit, abs_lt]
  constructor
  · rintro ⟨h1, h2, h3, h4⟩
    exact ⟨⟨by omega, by omega⟩, ⟨by omega, by omega⟩⟩
  · rintro ⟨⟨h1, h2⟩, ⟨h3, h4⟩⟩
    exact ⟨by omega, by omega, by omega, by omega⟩

theorem clearHit_iff_abs (x1 y1 : Nat) :
    clearHit x1 y1 ↔
      |(x1 : Int) - CLEAR_BUTTON_XPOS| < CLEAR_BUTTON_RADIUS ∧
      |(y1 : Int) - CLEAR_BUTTON_YPOS| < CLEAR_BUTTON_RADIUS := by
  simp only [clearHit, abs_lt]
  constructor
  · rintro ⟨h1, h2, h3, h4⟩
    exact ⟨⟨by omega, by omega⟩, ⟨by omega, by omega⟩⟩
  · rintro ⟨⟨h1, h2⟩, ⟨h3, h4⟩⟩
    exact ⟨by omega, by omega, by omega, by omega⟩

theorem eraserHit_iff_abs (x1 y1 : Nat) :
    eraserHit x1 y1 ↔
      |(x1 : Int) - ERASER_XPOS| < ERASER_RADIUS ∧ |(y1 : Int) - ERASER_YPOS| < ERASER_RADIUS := by
  simp only [eraserHit, abs_lt]
  constructor
  · rintro ⟨h1, h2, h3, h4⟩
    exact ⟨⟨by omega, by omega⟩, ⟨by omega, by omega⟩⟩
  · rintro ⟨⟨h1, h2⟩, ⟨h3, h4⟩⟩
    exact ⟨by omega, by omega, by omega, by omega⟩

theorem undoHit_iff_abs (x1 y1 : Nat) :
    undoHit x1 y1 ↔
      |(x1 : Int) - UNDO_BUTTON_XPOS| < UNDO_BUTTON_RADIUS ∧
      |(y1 : Int) - UNDO_BUTTON_YPOS| < UNDO_BUTTON_RADIUS := by
  simp only [undoHit, abs_lt]
  constructor
  · rintro ⟨h1, h2, h3, h4⟩
    exact ⟨⟨by omega, by omega⟩, ⟨by omega, by omega⟩⟩
  · rintro ⟨⟨h1, h2⟩, ⟨h3, h4⟩⟩
    exact ⟨by omega, by omega, by omega, by omega⟩

theorem redoHit_iff_abs (x1 y1 : Nat) :
    redoHit x1 y1 ↔
      |(x1 : Int) - REDO_BUTTON_XPOS| < REDO_BUTTON_RADIUS ∧
      |(y1 : Int) - REDO_BUTTON_YPOS| < REDO_BUTTON_RADIUS := by
  simp only [redoHit, abs_lt]
  constructor
  · rintro ⟨h1, h2, h3, h4⟩
    exact ⟨⟨by omega, by omega⟩, ⟨by omega, by omega⟩⟩
  · rintro ⟨⟨h1, h2⟩, ⟨h3, h4⟩⟩
    exact ⟨by omega, by omega, by omega, by omega⟩

/-- A dispatched sample that passes the clear test empties the undo stack. -/
theorem onTouch_clear_undoList (c : LcdColors) (s : State) (x1 y1 : Nat) (h : clearHit x1 y1) :
    ∃ s', Touchscreen_demo.onTouch c s x1 y1 = some s' ∧ undoList s' = [] := by
  obtain ⟨s1, -, hclear⟩ := clearBranch_spec c s
  refine ⟨Touchscreen_demo.resetHistory s1, ?_, ?_⟩
  · rw [onTouch_eq_regionAction, (resolve_eq_some_iff x1 y1 Region.clear).mpr h]
    exact hclear
  · simp only [undoList, Touchscreen_demo.resetHistory]
    exact stackView_neg_one _

theorem stackView_dropLast (a : Nat → DrawingAction) (top : Int) (h : 0 ≤ top) :
    (stackView a top).dropLast = stackView a (top - 1) ∧
      (stackView a top).getLast? = some (a top.toNat) := by
  rw [stackView_pop a top h]
  simp

/-! ### The invariant over sequences of history operations -/

theorem applyOp_sessionInv (c : LcdColors) (s : State) (op : HistoryOp) (hi : SessionInv s) :
    ∃ s', applyOp c s op = some s' ∧ SessionInv s' := by
  cases op with
  | save x y color =>
    obtain ⟨s', he, hi', -⟩ := SaveToUndoStack_sessionInv s x y color hi
    exact ⟨s', he, hi'⟩
  | undo => exact Undo_sessionInv c s hi
  | redo => exact Redo_sessionInv s hi
  | clear => exact ⟨_, rfl, resetHistory_sessionInv s hi.2.2.2⟩

theorem applyOps_sessionInv (c : LcdColors) (ops : List HistoryOp) (s : State)
    (hi : SessionInv s) : ∃ s', applyOps c s ops = some s' ∧ SessionInv s' := by
  induction ops generalizing s with
  | nil => exact ⟨s, rfl, hi⟩
  | cons op ops ih =>
    obtain ⟨s1, he, h1⟩ := applyOp_sessionInv c s op hi
    obtain ⟨s', he', h'⟩ := ih s1 h1
    exact ⟨s', by simp [applyOps, he, he'], h'⟩

theorem sessionInv_lengths (s : State) (hi : SessionInv s) :
    (undoList s).length + (redoList s).length ≤ 150 := by
  obtain ⟨h1, h2, h3, -⟩ := hi
  have k1 := stackView_length s.undoStack s.undoTop h1
  have k2 := stackView_length s.redoStack s.redoTop h2
  simp only [MAX_HISTORY_SIZE] at h3
  simp only [undoList, redoList]
  omega

theorem sessionInv_withinCapacity (s : State) (hi : SessionInv s) : WithinCapacity s := by
  obtain ⟨h1, h2, h3, -⟩ := hi
  simp only [WithinCapacity, MAX_HISTORY_SIZE] at *
  omega


theorem run_append_one (c : LcdColors) (samples : List (Nat × Nat)) (s0 s s' : State)
    (x1 y1 : Nat) (hrun : Touchscreen_demo.run c s0 samples = some s)
    (he : Touchscreen_demo.onTouch c s x1 y1 = some s') :
    Touchscreen_demo.run c s0 (samples ++ [(x1, y1)]) = some s' := by
  induction samples generalizing s0 with
  | nil =>
    simp only [Touchscreen_demo.run] at hrun
    cases hrun
    simp [Touchscreen_demo.run, he]
  | cons p ps ih =>
    simp only [Touchscreen_demo.run, Option.bind_eq_bind] at hrun
    cases h1 : Touchscreen_demo.onTouch c s0 p.1 p.2 with
    | none => simp [h1] at hrun
    | some s1 =>
      simp only [h1, Option.some_bind] at hrun
      simp [Touchscreen_demo.run, h1, ih s1 hrun]

/-- `RedrawCanvas` on a history within capacity, with the replayed calls written out. -/
theorem RedrawCanvas_replay (s : State) (h0 : -1 ≤ s.undoTop)
    (h1 : s.undoTop ≤ MAX_HISTORY_SIZE - 1) :
    ∃ s', RedrawCanvas s = some s' ∧
      s'.lcd = s.lcd ++ (undoList s).map (fun a => UTIL_LCD_FillCircle a.x a.y 5 a.color) :=
  ⟨_, RedrawCanvas_eq s h0 h1, rfl⟩

/-- The state `undoneState` is reached from the setup by two touch samples. -/
theorem reachable_undoneState : Reachable sampleColors undoneState := by
  obtain ⟨s', e', -⟩ := run_sessionInv sampleColors [(100, 100), (437, 100)]
    (bootState sampleColors) (reachable_bootState sampleColors).loopInv
  refine ⟨bootState sampleColors, [(100, 100), (437, 100)],
    (setup_eq_bootState sampleColors).1, ?_⟩
  simp only [undoneState, e', Option.getD_some]

/-- The redo stack of `undoneState` holds the undone dot and its undo stack is empty. -/
theorem undoneState_lists :
    redoList undoneState = [⟨100, 100, 0xFF000000⟩] ∧ undoList undoneState = [] := by
  decide

/-! ## Claims -/

/-- C1. `SaveToUndoStack` on a history within capacity: when the undo stack already holds
`MAX_HISTORY_SIZE` (150) actions the state is returned unchanged, so the undo stack keeps
every action and the new one is dropped; otherwise the action `{x, y, color}` becomes the
new last element of the undo stack, the earlier elements keep value and position, and the
redo stack becomes empty. -/
theorem C1_SaveToUndoStack_commit (s : State) (x y color : Nat) (h : WithinCapacity s) :
    ((undoList s).length = 150 →
        SaveToUndoStack s x y color = some s) ∧
    ((undoList s).length ≠ 150 →
        ∃ s', SaveToUndoStack s x y color = some s' ∧
          undoList s' = undoList s ++ [⟨x, y, color⟩] ∧ redoList s' = []) := by
  obtain ⟨hu0, hu1, -, -⟩ := h
  have hlen := stackView_length s.undoStack s.undoTop hu0
  simp only [MAX_HISTORY_SIZE] at hu1
  constructor
  · intro hfull
    apply SaveToUndoStack_of_full
    simp only [undoList] at hfull
    simp only [MAX_HISTORY_SIZE]
    omega
  · intro hroom
    simp only [undoList] at hroom
    have h1 : s.undoTop < MAX_HISTORY_SIZE - 1 := by
      simp only [MAX_HISTORY_SIZE]
      omega
    refine ⟨_, SaveToUndoStack_of_room s x y color hu0 h1, ?_, ?_⟩
    · simp only [undoList]
      exact stackView_push s.undoStack s.undoTop ⟨x, y, color⟩ hu0
    · simp only [redoList]
      exact stackView_neg_one _

/-- C1 at the initial history with the action `{7, 9, 3}`. -/
theorem C1_SaveToUndoStack_commit_witness :
    WithinCapacity initialState ∧
    (((undoList initialState).length = 150 →
        SaveToUndoStack initialState 7 9 3 = some initialState) ∧
    ((undoList initialState).length ≠ 150 →
        ∃ s', SaveToUndoStack initialState 7 9 3 = some s' ∧
          undoList s' = undoList initialState ++ [⟨7, 9, 3⟩] ∧ redoList s' = [])) :=
  ⟨by decide, C1_SaveToUndoStack_commit initialState 7 9 3 (by decide)⟩

/-- C2. `Undo` on a history within capacity whose undo stack is non-empty removes exactly
the last (newest) action `a` from the undo stack, the remaining undo elements keeping value
and order; when the redo stack holds fewer than 150 actions `a` becomes its new top, the
earlier redo elements unchanged, and when it holds 150 actions the redo stack is unchanged
and `a` is recorded nowhere. -/
theorem C2_Undo_pop (c : LcdColors) (s : State) (h : WithinCapacity s)
    (hne : undoList s ≠ []) :
    ∃ s' a, Undo c s = some s' ∧ undoList s = undoList s' ++ [a] ∧
      ((redoList s).length < 150 → redoList s' = redoList s ++ [a]) ∧
      ((redoList s).length = 150 → redoList s' = redoList s) := by
  obtain ⟨-, hu1, hr0, hr1⟩ := h
  have hu0 : 0 ≤ s.undoTop := stackView_ne_nil _ _ hne
  have hlen := stackView_length s.redoStack s.redoTop hr0
  simp only [MAX_HISTORY_SIZE] at hr1
  by_cases hr : s.redoTop < MAX_HISTORY_SIZE - 1
  · refine ⟨_, s.undoStack s.undoTop.toNat, Undo_of_room c s hu0 hu1 hr0 hr, ?_, ?_, ?_⟩
    · simp only [undoList]
      exact stackView_pop s.undoStack s.undoTop hu0
    · intro _
      simp only [redoList]
      exact stackView_push s.redoStack s.redoTop _ hr0
    · intro hfull
      simp only [redoList] at hfull
      simp only [MAX_HISTORY_SIZE] at hr
      omega
  · refine ⟨_, s.undoStack s.undoTop.toNat, Undo_of_full c s hu0 hu1 hr, ?_, ?_, ?_⟩
    · simp only [undoList]
      exact stackView_pop s.undoStack s.undoTop hu0
    · intro hlt
      simp only [redoList] at hlt
      simp only [MAX_HISTORY_SIZE] at hr
      omega
    · intro _
      rfl

/-- C2 at the history with undo stack `[{1,2,3}, {4,5,6}]` and redo stack `[{7,8,9}]`. -/
theorem C2_Undo_pop_witness :
    WithinCapacity sampleState ∧ undoList sampleState ≠ [] ∧
    ∃ s' a, Undo sampleColors sampleState = some s' ∧
      undoList sampleState = undoList s' ++ [a] ∧
      ((redoList sampleState).length < 150 → redoList s' = redoList sampleState ++ [a]) ∧
      ((redoList sampleState).length = 150 → redoList s' = redoList sampleState) :=
  ⟨by decide, by decide, C2_Undo_pop sampleColors sampleState (by decide) (by decide)⟩

/-- C3. `Redo` on a history within capacity whose redo stack is non-empty removes exactly
the top (most recently undone) action `a` from the redo stack and makes exactly one LCD
call, `UTIL_LCD_FillCircle(a.x, a.y, 5, a.color)`, hence no canvas reconstruction; `a` is
appended to the undo stack when that holds fewer than 150 actions, and when it holds 150
the undo stack is unchanged although the dot is still drawn. -/
theorem C3_Redo_pop (s : State) (h : WithinCapacity s) (hne : redoList s ≠ []) :
    ∃ s' a, Redo s = some s' ∧ redoList s = redoList s' ++ [a] ∧
      s'.lcd = s.lcd ++ [UTIL_LCD_FillCircle a.x a.y 5 a.color] ∧
      ((undoList s).length < 150 → undoList s' = undoList s ++ [a]) ∧
      ((undoList s).length = 150 → undoList s' = undoList s) := by
  obtain ⟨hu0, hu1, -, hr1⟩ := h
  have hr0 : 0 ≤ s.redoTop := stackView_ne_nil _ _ hne
  have hlen := stackView_length s.undoStack s.undoTop hu0
  simp only [MAX_HISTORY_SIZE] at hu1
  by_cases hu : s.undoTop < MAX_HISTORY_SIZE - 1
  · refine ⟨_, s.redoStack s.redoTop.toNat, Redo_of_room s hr0 hr1 hu0 hu, ?_, rfl, ?_, ?_⟩
    · simp only [redoList]
      exact stackView_pop s.redoStack s.redoTop hr0
    · intro _
      simp only [undoList]
      exact stackView_push s.undoStack s.undoTop _ hu0
    · intro hfull
      simp only [undoList] at hfull
      simp only [MAX_HISTORY_SIZE] at hu
      omega
  · refine ⟨_, s.redoStack s.redoTop.toNat, Redo_of_full s hr0 hr1 hu, ?_, rfl, ?_, ?_⟩
    · simp only [redoList]
      exact stackView_pop s.redoStack s.redoTop hr0
    · intro hlt
      simp only [undoList] at hlt
      simp only [MAX_HISTORY_SIZE] at hu
      omega
    · intro _
      rfl

/-- C3 at the history with undo stack `[{1,2,3}, {4,5,6}]` and redo stack `[{7,8,9}]`. -/
theorem C3_Redo_pop_witness :
    WithinCapacity sampleState ∧ redoList sampleState ≠ [] ∧
    ∃ s' a, Redo sampleState = some s' ∧ redoList sampleState = redoList s' ++ [a] ∧
      s'.lcd = sampleState.lcd ++ [UTIL_LCD_FillCircle a.x a.y 5 a.color] ∧
      ((undoList sampleState).length < 150 → undoList s' = undoList sampleState ++ [a]) ∧
      ((undoList sampleState).length = 150 → undoList s' = undoList sampleState) :=
  ⟨by decide, by decide, C3_Redo_pop sampleState (by decide) (by decide)⟩

/-- C4. Capacity invariant.  Starting from the initial empty history
(`undoTop = redoTop = -1`), every finite sequence of `SaveToUndoStack`, `Undo`, `Redo` and
the clear-branch reset returns a history with `-1 <= undoTop <= 149` and
`-1 <= redoTop <= 149`, whose undo and redo stacks each hold at most 150 actions; and each
of the four operations returns and preserves this predicate from any history satisfying
it. -/
theorem C4_capacity_invariant (c : LcdColors) :
    (initialState.undoTop = -1 ∧ initialState.redoTop = -1) ∧
    (∀ ops : List HistoryOp, ∃ s', applyOps c initialState ops = some s' ∧
      (-1 ≤ s'.undoTop ∧ s'.undoTop ≤ 149 ∧ -1 ≤ s'.redoTop ∧ s'.redoTop ≤ 149) ∧
      (undoList s').length ≤ 150 ∧ (redoList s').length ≤ 150) ∧
    (∀ (s : State) (op : HistoryOp),
      (-1 ≤ s.undoTop ∧ s.undoTop ≤ 149 ∧ -1 ≤ s.redoTop ∧ s.redoTop ≤ 149) →
      ∃ s', applyOp c s op = some s' ∧
        (-1 ≤ s'.undoTop ∧ s'.undoTop ≤ 149 ∧ -1 ≤ s'.redoTop ∧ s'.redoTop ≤ 149)) := by
  refine ⟨⟨rfl, rfl⟩, ?_, ?_⟩
  · intro ops
    obtain ⟨s', he, h'⟩ := applyOps_withinCapacity c ops initialState (by decide)
    refine ⟨s', he, ?_, withinCapacity_lengths s' h'⟩
    simpa [WithinCapacity, MAX_HISTORY_SIZE] using h'
  · intro s op h
    have hw : WithinCapacity s := by simpa [WithinCapacity, MAX_HISTORY_SIZE] using h
    obtain ⟨s', he, h'⟩ := applyOp_withinCapacity c s op hw
    exact ⟨s', he, by simpa [WithinCapacity, MAX_HISTORY_SIZE] using h'⟩

/-- C4 at the history with undo stack `[{1,2,3}, {4,5,6}]` and redo stack `[{7,8,9}]`, for
the operation `Undo`. -/
theorem C4_capacity_invariant_witness :
    (-1 ≤ sampleState.undoTop ∧ sampleState.undoTop ≤ 149 ∧
      -1 ≤ sampleState.redoTop ∧ sampleState.redoTop ≤ 149) ∧
    ∃ s', applyOp sampleColors sampleState HistoryOp.undo = some s' ∧
      (-1 ≤ s'.undoTop ∧ s'.undoTop ≤ 149 ∧ -1 ≤ s'.redoTop ∧ s'.redoTop ≤ 149) :=
  ⟨by decide, (C4_capacity_invariant sampleColors).2.2 sampleState HistoryOp.undo (by decide)⟩

/-- C5. For every list of `k` actions committed one after another with `SaveToUndoStack`
from the empty history, the snapshot (undo stack read from index 0 to `undoTop`) is the
first `min(k, 150)` committed actions in commit order: its length is `min(k, 150)`, so the
150 oldest actions are all retained and every later commit is dropped. -/
theorem C5_commit_snapshot (acts : List DrawingAction) :
    ∃ s', commitAll initialState acts = some s' ∧
      undoList s' = acts.take 150 ∧ (undoList s').length = min acts.length 150 := by
  obtain ⟨s', he, hl⟩ := commitAll_undoList acts initialState (by decide) (by decide)
  have h0 : undoList initialState = [] := by decide
  rw [h0, List.nil_append] at hl
  refine ⟨s', he, hl, ?_⟩
  rw [hl, List.length_take, Nat.min_comm]

/-- C6. `Undo` and `Redo` are inverses.  For every history within capacity and every `k`
with `1 <= k <= len(undo)` and `len(redo) + k <= 150`, running `Undo` `k` times returns a
history whose redo stack is the old one followed by the last `k` undo actions, the most
recently undone on top, and running `Redo` `k` times from there returns a history whose
undo stack and redo stack have the contents, order and length they had at the start. -/
theorem C6_undo_redo_inverse (c : LcdColors) (s : State) (k : Nat) (h : WithinCapacity s)
    (hk1 : 1 ≤ k) (hk2 : k ≤ (undoList s).length) (hk3 : (redoList s).length + k ≤ 150) :
    ∃ s1 s2, repeatOp (Undo c) k s = some s1 ∧ repeatOp Redo k s1 = some s2 ∧
      undoList s1 = (undoList s).take ((undoList s).length - k) ∧
      redoList s1 = redoList s ++ ((undoList s).drop ((undoList s).length - k)).reverse ∧
      undoList s2 = undoList s ∧ redoList s2 = redoList s := by
  have hVlen : ((undoList s).drop ((undoList s).length - k)).length = k := by
    rw [List.length_drop]
    omega
  have hsplit : undoList s = (undoList s).take ((undoList s).length - k) ++
      (undoList s).drop ((undoList s).length - k) := (List.take_append_drop _ _).symm
  obtain ⟨s1, he1, hw1, hu1, hr1⟩ := repeatOp_Undo_lists c
    ((undoList s).drop ((undoList s).length - k)) s _ h hsplit (by omega)
  rw [hVlen] at he1
  have hlen := (withinCapacity_lengths s h).1
  obtain ⟨s2, he2, -, hr2, hu2⟩ := repeatOp_Redo_lists
    ((undoList s).drop ((undoList s).length - k)).reverse s1 (redoList s) hw1 hr1 (by
      rw [hu1, List.length_reverse, hVlen, List.length_take]
      omega)
  rw [List.length_reverse, hVlen] at he2
  refine ⟨s1, s2, he1, he2, hu1, hr1, ?_, hr2⟩
  rw [hu2, hu1, List.reverse_reverse]
  exact hsplit.symm

/-- C6 at the history with undo stack `[{1,2,3}, {4,5,6}]` and redo stack `[{7,8,9}]`,
for `k = 2`. -/
theorem C6_undo_redo_inverse_witness :
    WithinCapacity sampleState ∧ 1 ≤ 2 ∧ 2 ≤ (undoList sampleState).length ∧
    (redoList sampleState).length + 2 ≤ 150 ∧
    ∃ s1 s2, repeatOp (Undo sampleColors) 2 sampleState = some s1 ∧
      repeatOp Redo 2 s1 = some s2 ∧
      undoList s1 = (undoList sampleState).take ((undoList sampleState).length - 2) ∧
      redoList s1 = redoList sampleState ++
        ((undoList sampleState).drop ((undoList sampleState).length - 2)).reverse ∧
      undoList s2 = undoList sampleState ∧ redoList s2 = redoList sampleState :=
  ⟨by decide, by decide, by decide, by decide,
    C6_undo_redo_inverse sampleColors sampleState 2 (by decide) (by decide) (by decide)
      (by decide)⟩

/-- C7. In every session state reachable from the initial state by any sequence of touch
samples, and more generally in every state that satisfies the loop invariant `SessionInv`,
dispatching a touch sample whose point lies in the canvas rectangle returns a state whose
redo stack is empty.  A non-empty redo stack is emptied by the commit itself: when the redo
stack is not empty the undo stack holds fewer than 150 actions, and whenever the undo stack
holds fewer than 150 actions the touch is committed, the action `{x1, y1, col}` becoming
the new last element of the undo stack. -/
theorem C7_canvas_touch_empties_redo (c : LcdColors) (s : State) (x1 y1 : Nat)
    (hr : Reachable c s ∨ SessionInv s) (hc : canvasHit x1 y1) :
    ∃ s', Touchscreen_demo.onTouch c s x1 y1 = some s' ∧ redoList s' = [] ∧
      (redoList s ≠ [] → (undoList s).length < 150) ∧
      ((undoList s).length < 150 → ∃ col, undoList s' = undoList s ++ [⟨x1, y1, col⟩]) := by
  have hi : SessionInv s := hr.elim (fun h => h.loopInv) id
  obtain ⟨h1, h2, h3, h4⟩ := hi
  have hlu := stackView_length s.undoStack s.undoTop h1
  have hroom : redoList s ≠ [] → (undoList s).length < 150 := by
    intro hne
    have h0 := stackView_ne_nil _ _ hne
    simp only [MAX_HISTORY_SIZE] at h3
    simp only [undoList]
    omega
  have key : ∀ (call : LcdCall) (col : Nat),
      ∃ s', SaveToUndoStack (emit s call) x1 y1 col = some s' ∧ redoList s' = [] ∧
        ((undoList s).length < 150 → undoList s' = undoList s ++ [⟨x1, y1, col⟩]) := by
    intro call col
    by_cases hlt : s.undoTop < MAX_HISTORY_SIZE - 1
    · obtain ⟨s', he, hu, hre, -, -⟩ := draw_and_commit_of_room s call x1 y1 col h1 hlt
      exact ⟨s', he, hre, fun _ => hu⟩
    · refine ⟨emit s call, draw_and_commit_of_full s call x1 y1 col hlt, ?_, ?_⟩
      · have hre : s.redoTop = -1 := by
          simp only [MAX_HISTORY_SIZE] at h3 hlt
          omega
        simp only [redoList, emit, hre]
        exact stackView_neg_one _
      · intro hlen
        simp only [MAX_HISTORY_SIZE] at hlt
        simp only [undoList] at hlen
        omega
  rw [onTouch_of_canvasHit c s x1 y1 hc]
  by_cases hsel : s.selectedColorIndex < NUM_COLORS
  · obtain ⟨col, hcol⟩ := COLOR_LIST_getElem? c s.selectedColorIndex hsel
    rw [canvasBranch_of_colour c x1 y1 s col hsel hcol]
    obtain ⟨s', he, hre, hu⟩ := key (UTIL_LCD_FillCircle x1 y1 5 col) col
    exact ⟨s', he, hre, hroom, fun h => ⟨col, hu h⟩⟩
  · have heq : s.selectedColorIndex = NUM_COLORS := by omega
    rw [canvasBranch_of_eraser c x1 y1 s heq]
    obtain ⟨s', he, hre, hu⟩ := key (UTIL_LCD_FillCircle x1 y1 10 c.UTIL_LCD_COLOR_WHITE)
      c.UTIL_LCD_COLOR_WHITE
    exact ⟨s', he, hre, hroom, fun h => ⟨c.UTIL_LCD_COLOR_WHITE, hu h⟩⟩

/-- C7 at the reachable state `undoneState`, whose redo stack holds the undone dot
`{100, 100, black}`, for a touch at `(200, 120)`: the redo stack is emptied. -/
theorem C7_canvas_touch_empties_redo_witness :
    (Reachable sampleColors undoneState ∨ SessionInv undoneState) ∧ canvasHit 200 120 ∧
    redoList undoneState = [⟨100, 100, 0xFF000000⟩] ∧
    ∃ s', Touchscreen_demo.onTouch sampleColors undoneState 200 120 = some s' ∧
      redoList s' = [] ∧
      (redoList undoneState ≠ [] → (undoList undoneState).length < 150) ∧
      ((undoList undoneState).length < 150 →
        ∃ col, undoList s' = undoList undoneState ++ [⟨200, 120, col⟩]) :=
  ⟨Or.inl reachable_undoneState, by decide, undoneState_lists.1,
    C7_canvas_touch_empties_redo sampleColors undoneState 200 120
      (Or.inl reachable_undoneState) (by decide)⟩

/-- C8. For every history within capacity and every action `a`, the sequence `Undo`,
`SaveToUndoStack(a)`, `Redo` returns, the redo stack is empty after the commit, and the
final `Redo` is a no-op: it returns the very state it was given, so neither stack changes
and no LCD call is made. -/
theorem C8_commit_after_undo_kills_redo (c : LcdColors) (s : State) (a : DrawingAction)
    (h : WithinCapacity s) :
    ∃ s1 s2, Undo c s = some s1 ∧ SaveToUndoStack s1 a.x a.y a.color = some s2 ∧
      redoList s2 = [] ∧ Redo s2 = some s2 := by
  obtain ⟨hu0, hu1, hr0, -⟩ := h
  obtain ⟨s1, he1, -, ht⟩ := Undo_tops c s hu1 hr0
  have hb : -1 ≤ s1.undoTop ∧ s1.undoTop < MAX_HISTORY_SIZE - 1 := by
    simp only [MAX_HISTORY_SIZE] at *
    rcases ht with ⟨k1, rfl⟩ | ⟨k1, k2, -⟩
    · omega
    · omega
  refine ⟨s1, _, he1, SaveToUndoStack_of_room s1 a.x a.y a.color hb.1 hb.2, ?_, ?_⟩
  · simp only [redoList]
    exact stackView_neg_one _
  · exact Redo_of_empty _ (show (-1 : Int) < 0 by omega)

/-- C8 at the history with undo stack `[{1,2,3}, {4,5,6}]` and redo stack `[{7,8,9}]`,
for the action `{10, 20, 30}`. -/
theorem C8_commit_after_undo_kills_redo_witness :
    WithinCapacity sampleState ∧
    ∃ s1 s2, Undo sampleColors sampleState = some s1 ∧
      SaveToUndoStack s1 (DrawingAction.mk 10 20 30).x (DrawingAction.mk 10 20 30).y
        (DrawingAction.mk 10 20 30).color = some s2 ∧
      redoList s2 = [] ∧ Redo s2 = some s2 :=
  ⟨by decide, C8_commit_after_undo_kills_redo sampleColors sampleState ⟨10, 20, 30⟩ (by decide)⟩

/-- C9. No-op at the empty boundary: when the undo stack is empty, `Undo` applied any
number of times returns the very state it started from (undo stack, redo stack, selected
tool and LCD log all unchanged, so no LCD call is made); when the redo stack is empty the
same holds of `Redo`. -/
theorem C9_empty_boundary_noop (c : LcdColors) (s : State) :
    (undoList s = [] → ∀ n, repeatOp (Undo c) n s = some s) ∧
    (redoList s = [] → ∀ n, repeatOp Redo n s = some s) := by
  constructor
  · intro h n
    have ht : s.undoTop < 0 := stackView_eq_nil _ _ h
    induction n with
    | zero => rfl
    | succ n ih => simp [repeatOp, Undo_of_empty c s ht, ih]
  · intro h n
    have ht : s.redoTop < 0 := stackView_eq_nil _ _ h
    induction n with
    | zero => rfl
    | succ n ih => simp [repeatOp, Redo_of_empty s ht, ih]

/-- C9 at the initial history, whose two stacks are empty. -/
theorem C9_empty_boundary_noop_witness :
    (undoList initialState = [] ∧ redoList initialState = []) ∧
    (∀ n, repeatOp (Undo sampleColors) n initialState = some initialState) ∧
    (∀ n, repeatOp Redo n initialState = some initialState) :=
  ⟨⟨by decide, by decide⟩,
    (C9_empty_boundary_noop sampleColors initialState).1 (by decide),
    (C9_empty_boundary_noop sampleColors initialState).2 (by decide)⟩

/-- C10. For every session state, dispatching a touch sample inside the clear button's hit
zone returns a state in which the undo stack and the redo stack are empty and
`selectedColorIndex` is what it was; an `Undo` or a `Redo` performed directly afterwards
returns that state unchanged. -/
theorem C10_clear_resets_history (c : LcdColors) (s : State) (x1 y1 : Nat)
    (h : clearHit x1 y1) :
    ∃ s', Touchscreen_demo.onTouch c s x1 y1 = some s' ∧
      undoList s' = [] ∧ redoList s' = [] ∧
      s'.selectedColorIndex = s.selectedColorIndex ∧
      Undo c s' = some s' ∧ Redo s' = some s' := by
  obtain ⟨hp, he, hu, hr, hcv⟩ := clearHit_exclusive x1 y1 h
  obtain ⟨s1, hf, hclear⟩ := clearBranch_spec c s
  refine ⟨Touchscreen_demo.resetHistory s1, ?_, ?_, ?_, ?_, ?_, ?_⟩
  · simp only [Touchscreen_demo.onTouch, paletteLoop_of_no_hit c x1 y1 s hp, h, he, hu, hr, hcv,
      hclear, if_true, if_false, Option.bind_eq_bind, Option.some_bind]
  · simp only [undoList, Touchscreen_demo.resetHistory]
    exact stackView_neg_one _
  · simp only [redoList, Touchscreen_demo.resetHistory]
    exact stackView_neg_one _
  · obtain ⟨l, rfl⟩ := hf
    rfl
  · exact Undo_of_empty c _ (show (-1 : Int) < 0 by omega)
  · exact Redo_of_empty _ (show (-1 : Int) < 0 by omega)

/-- C10 at the history with undo stack `[{1,2,3}, {4,5,6}]` and redo stack `[{7,8,9}]`,
for a touch at the centre `(437, 30)` of the clear button. -/
theorem C10_clear_resets_history_witness :
    clearHit 437 30 ∧
    ∃ s', Touchscreen_demo.onTouch sampleColors sampleState 437 30 = some s' ∧
      undoList s' = [] ∧ redoList s' = [] ∧
      s'.selectedColorIndex = sampleState.selectedColorIndex ∧
      Undo sampleColors s' = some s' ∧ Redo s' = some s' :=
  ⟨by decide, C10_clear_resets_history sampleColors sampleState 437 30 (by decide)⟩

/-- C11. For every palette index `i` in 0..4, every canvas point `(px, py)` and every
history within capacity whose undo stack holds fewer than 150 actions: dispatching a touch
inside swatch `i` and then a touch at `(px, py)` commits `{px, py, COLOR_LIST[i]}` as the new
last element of the undo stack, the second dispatch making the single LCD call
`UTIL_LCD_FillCircle(px, py, 5, COLOR_LIST[i])`; dispatching a touch inside the eraser button
and then a touch at `(px, py)` commits `{px, py, white}`, the second dispatch making the single
LCD call `UTIL_LCD_FillCircle(px, py, 10, white)`. -/
theorem C11_select_then_draw (c : LcdColors) (s : State) (i x1 y1 ex ey px py : Nat)
    (hi : i < 5) (hw : WithinCapacity s) (hroom : (undoList s).length < 150)
    (hsw : paletteHit i x1 y1) (her : eraserHit ex ey) (hp : canvasHit px py) :
    (∃ col s1 s2, (COLOR_LIST c)[i]? = some col ∧
      Touchscreen_demo.onTouch c s x1 y1 = some s1 ∧
      Touchscreen_demo.onTouch c s1 px py = some s2 ∧
      undoList s2 = undoList s ++ [⟨px, py, col⟩] ∧
      s2.lcd = s1.lcd ++ [UTIL_LCD_FillCircle px py 5 col]) ∧
    (∃ s1 s2, Touchscreen_demo.onTouch c s ex ey = some s1 ∧
      Touchscreen_demo.onTouch c s1 px py = some s2 ∧
      undoList s2 = undoList s ++ [⟨px, py, c.UTIL_LCD_COLOR_WHITE⟩] ∧
      s2.lcd = s1.lcd ++ [UTIL_LCD_FillCircle px py 10 c.UTIL_LCD_COLOR_WHITE]) := by
  obtain ⟨hu0, hu1, -, -⟩ := hw
  have hlen := stackView_length s.undoStack s.undoTop hu0
  have hlt : s.undoTop < MAX_HISTORY_SIZE - 1 := by
    simp only [undoList] at hroom
    simp only [MAX_HISTORY_SIZE]
    omega
  constructor
  · obtain ⟨col, hcol⟩ := COLOR_LIST_getElem? c i hi
    obtain ⟨s1, he1, l, rfl⟩ := DrawBackground_Circles_frame c i { s with selectedColorIndex := i }
    obtain ⟨s2, he2, hl2, -, hlcd, -⟩ := draw_and_commit_of_room
      { s with selectedColorIndex := i, lcd := s.lcd ++ l }
      (UTIL_LCD_FillCircle px py 5 col) px py col hu0 hlt
    refine ⟨col, _, s2, hcol, ?_, ?_, hl2, hlcd⟩
    · rw [onTouch_of_paletteHit c s i x1 y1 hi hsw, he1]
    · rw [onTouch_of_canvasHit c _ px py hp, canvasBranch_of_colour c px py _ col hi hcol, he2]
  · obtain ⟨s1, he1, l, rfl⟩ := DrawBackground_Circles_frame c NUM_COLORS
      { s with selectedColorIndex := NUM_COLORS }
    obtain ⟨s2, he2, hl2, -, hlcd, -⟩ := draw_and_commit_of_room
      { s with selectedColorIndex := NUM_COLORS, lcd := s.lcd ++ l }
      (UTIL_LCD_FillCircle px py 10 c.UTIL_LCD_COLOR_WHITE) px py c.UTIL_LCD_COLOR_WHITE hu0 hlt
    refine ⟨_, s2, ?_, ?_, hl2, hlcd⟩
    · rw [onTouch_of_eraserHit c s ex ey her, he1]
    · rw [onTouch_of_canvasHit c _ px py hp, canvasBranch_of_eraser c px py _ rfl, he2]

/-- C11 at the history with undo stack `[{1,2,3}, {4,5,6}]`: swatch 2 touched at its centre
`(25, 140)`, the eraser button at its centre `(437, 240)`, the canvas at `(100, 100)`. -/
theorem C11_select_then_draw_witness :
    2 < 5 ∧ WithinCapacity sampleState ∧ (undoList sampleState).length < 150 ∧
    paletteHit 2 25 140 ∧ eraserHit 437 240 ∧ canvasHit 100 100 ∧
    (∃ col s1 s2, (COLOR_LIST sampleColors)[2]? = some col ∧
      Touchscreen_demo.onTouch sampleColors sampleState 25 140 = some s1 ∧
      Touchscreen_demo.onTouch sampleColors s1 100 100 = some s2 ∧
      undoList s2 = undoList sampleState ++ [⟨100, 100, col⟩] ∧
      s2.lcd = s1.lcd ++ [UTIL_LCD_FillCircle 100 100 5 col]) ∧
    (∃ s1 s2, Touchscreen_demo.onTouch sampleColors sampleState 437 240 = some s1 ∧
      Touchscreen_demo.onTouch sampleColors s1 100 100 = some s2 ∧
      undoList s2 = undoList sampleState ++ [⟨100, 100, sampleColors.UTIL_LCD_COLOR_WHITE⟩] ∧
      s2.lcd = s1.lcd ++
        [UTIL_LCD_FillCircle 100 100 10 sampleColors.UTIL_LCD_COLOR_WHITE]) :=
  ⟨by decide, by decide, by decide, by decide, by decide, by decide,
    C11_select_then_draw sampleColors sampleState 2 25 140 437 240 100 100 (by decide)
      (by decide) (by decide) (by decide) (by decide) (by decide)⟩

/-- C12. Region resolution is exclusive with the compiled geometry.  For every touch point
`(x1, y1)`, in particular every one in the `uint16_t` range: the ten zones tested by the
dispatcher (five swatches, four buttons, the canvas rectangle) are pairwise disjoint, so the
point passes the test of at most one of them; the first region containing the point in the
order swatch 0..4, clear, eraser, undo, redo, canvas is that one region; and the dispatcher
does exactly the action of that region, or nothing when there is none. -/
theorem C12_region_resolution_exclusive (c : LcdColors) (s : State) (x1 y1 : Nat) :
    (∀ r1 r2 : Region, regionHit x1 y1 r1 → regionHit x1 y1 r2 → r1 = r2) ∧
    (∀ r : Region, resolve x1 y1 = some r ↔ regionHit x1 y1 r) ∧
    (resolve x1 y1 = none ↔ ∀ r : Region, ¬ regionHit x1 y1 r) ∧
    Touchscreen_demo.onTouch c s x1 y1 = regionAction c s x1 y1 (resolve x1 y1) :=
  ⟨fun r1 r2 h1 h2 => regionHit_unique x1 y1 r1 r2 h1 h2, resolve_eq_some_iff x1 y1,
    resolve_eq_none_iff x1 y1, onTouch_eq_regionAction c s x1 y1⟩

/-- C12 at the centre `(437, 100)` of the undo button: the point passes the undo test, so
every region whose test it passes is the undo region, and the dispatcher runs `Undo`. -/
theorem C12_region_resolution_exclusive_witness :
    regionHit 437 100 Region.undo ∧
    (∀ r : Region, regionHit 437 100 r → r = Region.undo) ∧
    resolve 437 100 = some Region.undo ∧
    Touchscreen_demo.onTouch sampleColors sampleState 437 100 =
      regionAction sampleColors sampleState 437 100 (resolve 437 100) :=
  ⟨by decide,
    fun r h => (C12_region_resolution_exclusive sampleColors sampleState 437 100).1 r Region.undo
      h (by decide),
    ((C12_region_resolution_exclusive sampleColors sampleState 437 100).2.1 Region.undo).mpr
      (by decide),
    (C12_region_resolution_exclusive sampleColors sampleState 437 100).2.2.2⟩

/-- C13. A touch sample `(x1, y1)` triggers the canvas draw-and-commit branch if and only if
`50 <= x1 <= 400` and `15 <= y1 <= 257`: the branch's guard is equivalent to these bounds; a
sample within them makes the dispatcher run exactly the canvas branch; a sample outside them
resolves to another region or to none, whose action the dispatcher runs instead.  In
particular every sample on the border of the rectangle is accepted. -/
theorem C13_canvas_bounds_inclusive (c : LcdColors) (s : State) (x1 y1 : Nat) :
    (canvasHit x1 y1 ↔ 50 ≤ x1 ∧ x1 ≤ 400 ∧ 15 ≤ y1 ∧ y1 ≤ 257) ∧
    (50 ≤ x1 ∧ x1 ≤ 400 ∧ 15 ≤ y1 ∧ y1 ≤ 257 →
      Touchscreen_demo.onTouch c s x1 y1 = Touchscreen_demo.canvasBranch c x1 y1 s) ∧
    (¬ (50 ≤ x1 ∧ x1 ≤ 400 ∧ 15 ≤ y1 ∧ y1 ≤ 257) →
      resolve x1 y1 ≠ some Region.canvas ∧
      Touchscreen_demo.onTouch c s x1 y1 = regionAction c s x1 y1 (resolve x1 y1)) ∧
    (((x1 = 50 ∨ x1 = 400) ∧ 15 ≤ y1 ∧ y1 ≤ 257) ∨ ((y1 = 15 ∨ y1 = 257) ∧ 50 ≤ x1 ∧ x1 ≤ 400) →
      canvasHit x1 y1) := by
  refine ⟨canvasHit_iff x1 y1, ?_, ?_, ?_⟩
  · intro h
    exact onTouch_of_canvasHit c s x1 y1 ((canvasHit_iff x1 y1).mpr h)
  · intro h
    refine ⟨?_, onTouch_eq_regionAction c s x1 y1⟩
    intro hres
    exact h ((canvasHit_iff x1 y1).mp ((resolve_eq_some_iff x1 y1 Region.canvas).mp hres))
  · intro h
    rw [canvasHit_iff]
    omega

/-- C13 at the two corners `(50, 15)` and `(400, 257)` of the canvas and at the point
`(401, 100)` just right of it. -/
theorem C13_canvas_bounds_inclusive_witness :
    Touchscreen_demo.onTouch sampleColors sampleState 50 15 =
      Touchscreen_demo.canvasBranch sampleColors 50 15 sampleState ∧
    canvasHit 400 257 ∧
    resolve 401 100 ≠ some Region.canvas :=
  ⟨(C13_canvas_bounds_inclusive sampleColors sampleState 50 15).2.1 (by decide),
    (C13_canvas_bounds_inclusive sampleColors sampleState 400 257).2.2.2 (by decide),
    ((C13_canvas_bounds_inclusive sampleColors sampleState 401 100).2.2.1 (by decide)).1⟩

/-- C14, as stated, fails on the code.  The sample `(457, 50)` lies outside the clear
button's circle (`20*20 + 20*20 = 800`, not below `25*25 = 625`), and the sample `(452, 50)`
lies exactly on it (`15*15 + 20*20 = 625`); both pass the dispatcher's clear test, resolve to
the clear region and, dispatched on a history with two undo actions, empty the undo stack. -/
theorem C14_circle_test_counterexample :
    (¬ inCircle CLEAR_BUTTON_XPOS CLEAR_BUTTON_YPOS CLEAR_BUTTON_RADIUS 457 50 ∧
      clearHit 457 50 ∧ resolve 457 50 = some Region.clear ∧
      ∃ s', Touchscreen_demo.onTouch sampleColors sampleState 457 50 = some s' ∧
        undoList s' = [] ∧ undoList sampleState ≠ []) ∧
    (((452 : Int) - CLEAR_BUTTON_XPOS) * ((452 : Int) - CLEAR_BUTTON_XPOS) +
        ((50 : Int) - CLEAR_BUTTON_YPOS) * ((50 : Int) - CLEAR_BUTTON_YPOS) =
        CLEAR_BUTTON_RADIUS * CLEAR_BUTTON_RADIUS ∧
      clearHit 452 50 ∧ resolve 452 50 = some Region.clear ∧
      ∃ s', Touchscreen_demo.onTouch sampleColors sampleState 452 50 = some s' ∧
        undoList s' = [] ∧ undoList sampleState ≠ []) := by
  refine ⟨⟨by decide, by decide, by decide, ?_⟩, ⟨by decide, by decide, by decide, ?_⟩⟩
  · obtain ⟨s', he, hl⟩ := onTouch_clear_undoList sampleColors sampleState 457 50 (by decide)
    exact ⟨s', he, hl, by decide⟩
  · obtain ⟨s', he, hl⟩ := onTouch_clear_undoList sampleColors sampleState 452 50 (by decide)
    exact ⟨s', he, hl, by decide⟩

/-- C14, amended.  For each circular zone (the five palette swatches with radius 15 and the
clear, eraser, undo and redo buttons with radius 25) a touch sample triggers that zone's
action if and only if the point lies strictly inside the zone's bounding square,
`|x1 - cx| < r` and `|y1 - cy| < r`; every point strictly inside the circle
(`dx*dx + dy*dy < r*r`) therefore triggers it, and a touch with `|x1 - cx| = r` or
`|y1 - cy| = r` is ignored. -/
theorem C14_zone_test_is_bounding_square (c : LcdColors) (s : State) (x1 y1 : Nat) :
    Touchscreen_demo.onTouch c s x1 y1 = regionAction c s x1 y1 (resolve x1 y1) ∧
    (∀ i, i < 5 →
      (resolve x1 y1 = some (Region.palette i) ↔
        |(x1 : Int) - CIRCLE_XPOS i| < CIRCLE_RADIUS ∧
        |(y1 : Int) - CIRCLE_YPOS i| < CIRCLE_RADIUS) ∧
      (inCircle (CIRCLE_XPOS i) (CIRCLE_YPOS i) CIRCLE_RADIUS x1 y1 →
        resolve x1 y1 = some (Region.palette i))) ∧
    ((resolve x1 y1 = some Region.clear ↔
        |(x1 : Int) - CLEAR_BUTTON_XPOS| < CLEAR_BUTTON_RADIUS ∧
        |(y1 : Int) - CLEAR_BUTTON_YPOS| < CLEAR_BUTTON_RADIUS) ∧
      (inCircle CLEAR_BUTTON_XPOS CLEAR_BUTTON_YPOS CLEAR_BUTTON_RADIUS x1 y1 →
        resolve x1 y1 = some Region.clear)) ∧
    ((resolve x1 y1 = some Region.eraser ↔
        |(x1 : Int) - ERASER_XPOS| < ERASER_RADIUS ∧
        |(y1 : Int) - ERASER_YPOS| < ERASER_RADIUS) ∧
      (inCircle ERASER_XPOS ERASER_YPOS ERASER_RADIUS x1 y1 →
        resolve x1 y1 = some Region.eraser)) ∧
    ((resolve x1 y1 = some Region.undo ↔
        |(x1 : Int) - UNDO_BUTTON_XPOS| < UNDO_BUTTON_RADIUS ∧
        |(y1 : Int) - UNDO_BUTTON_YPOS| < UNDO_BUTTON_RADIUS) ∧
      (inCircle UNDO_BUTTON_XPOS UNDO_BUTTON_YPOS UNDO_BUTTON_RADIUS x1 y1 →
        resolve x1 y1 = some Region.undo)) ∧
    ((resolve x1 y1 = some Region.redo ↔
        |(x1 : Int) - REDO_BUTTON_XPOS| < REDO_BUTTON_RADIUS ∧
        |(y1 : Int) - REDO_BUTTON_YPOS| < REDO_BUTTON_RADIUS) ∧
      (inCircle REDO_BUTTON_XPOS REDO_BUTTON_YPOS REDO_BUTTON_RADIUS x1 y1 →
        resolve x1 y1 = some Region.redo)) := by
  refine ⟨onTouch_eq_regionAction c s x1 y1, ?_, ⟨?_, ?_⟩, ⟨?_, ?_⟩, ⟨?_, ?_⟩, ⟨?_, ?_⟩⟩
  · intro i hi
    have hiff : resolve x1 y1 = some (Region.palette i) ↔ paletteHit i x1 y1 := by
      rw [resolve_eq_some_iff]
      exact ⟨fun h => h.2, fun h => ⟨hi, h⟩⟩
    refine ⟨hiff.trans (paletteHit_iff_abs i x1 y1), fun hc => ?_⟩
    exact hiff.mpr ((paletteHit_iff_abs i x1 y1).mpr
      (inCircle_imp_square _ _ _ x1 y1 (by decide) hc))
  · exact (resolve_eq_some_iff x1 y1 Region.clear).trans (clearHit_iff_abs x1 y1)
  · intro hc
    exact (resolve_eq_some_iff x1 y1 Region.clear).mpr ((clearHit_iff_abs x1 y1).mpr
      (inCircle_imp_square _ _ _ x1 y1 (by decide) hc))
  · exact (resolve_eq_some_iff x1 y1 Region.eraser).trans (eraserHit_iff_abs x1 y1)
  · intro hc
    exact (resolve_eq_some_iff x1 y1 Region.eraser).mpr ((eraserHit_iff_abs x1 y1).mpr
      (inCircle_imp_square _ _ _ x1 y1 (by decide) hc))
  · exact (resolve_eq_some_iff x1 y1 Region.undo).trans (undoHit_iff_abs x1 y1)
  · intro hc
    exact (resolve_eq_some_iff x1 y1 Region.undo).mpr ((undoHit_iff_abs x1 y1).mpr
      (inCircle_imp_square _ _ _ x1 y1 (by decide) hc))
  · exact (resolve_eq_some_iff x1 y1 Region.redo).trans (redoHit_iff_abs x1 y1)
  · intro hc
    exact (resolve_eq_some_iff x1 y1 Region.redo).mpr ((redoHit_iff_abs x1 y1).mpr
      (inCircle_imp_square _ _ _ x1 y1 (by decide) hc))

/-- C14, amended, at the point `(30, 145)` inside the circle of swatch 2 and at the point
`(440, 35)` inside the circle of the clear button. -/
theorem C14_zone_test_is_bounding_square_witness :
    2 < 5 ∧ inCircle (CIRCLE_XPOS 2) (CIRCLE_YPOS 2) CIRCLE_RADIUS 30 145 ∧
    resolve 30 145 = some (Region.palette 2) ∧
    inCircle CLEAR_BUTTON_XPOS CLEAR_BUTTON_YPOS CLEAR_BUTTON_RADIUS 440 35 ∧
    resolve 440 35 = some Region.clear :=
  ⟨by decide, by decide,
    ((C14_zone_test_is_bounding_square sampleColors sampleState 30 145).2.1 2 (by decide)).2
      (by decide),
    by decide,
    (C14_zone_test_is_bounding_square sampleColors sampleState 440 35).2.2.1.2 (by decide)⟩

/-- C15. For every session state and every touch sample whose point passes none of the
dispatcher's region tests (no palette swatch, not clear, eraser, undo or redo, not the canvas
rectangle), dispatching the sample returns the very state it was given: the selected tool,
the undo stack, the redo stack and the LCD log are unchanged, so no LCD call is made. -/
theorem C15_touch_outside_all_regions (c : LcdColors) (s : State) (x1 y1 : Nat)
    (hp : ∀ i, i < 5 → ¬ paletteHit i x1 y1) (hc : ¬ clearHit x1 y1) (he : ¬ eraserHit x1 y1)
    (hu : ¬ undoHit x1 y1) (hr : ¬ redoHit x1 y1) (hv : ¬ canvasHit x1 y1) :
    Touchscreen_demo.onTouch c s x1 y1 = some s := by
  have hnone : resolve x1 y1 = none := by
    rw [resolve_eq_none_iff]
    intro r hhit
    cases r with
    | palette i => exact hp i hhit.1 hhit.2
    | clear => exact hc hhit
    | eraser => exact he hhit
    | undo => exact hu hhit
    | redo => exact hr hhit
    | canvas => exact hv hhit
  rw [onTouch_eq_regionAction, hnone]
  rfl

/-- C15 at the point `(405, 100)`, in the gap between the canvas and the buttons. -/
theorem C15_touch_outside_all_regions_witness :
    (∀ i, i < 5 → ¬ paletteHit i 405 100) ∧ ¬ clearHit 405 100 ∧ ¬ eraserHit 405 100 ∧
    ¬ undoHit 405 100 ∧ ¬ redoHit 405 100 ∧ ¬ canvasHit 405 100 ∧
    Touchscreen_demo.onTouch sampleColors sampleState 405 100 = some sampleState :=
  ⟨by decide, by decide, by decide, by decide, by decide, by decide,
    C15_touch_outside_all_regions sampleColors sampleState 405 100 (by decide) (by decide)
      (by decide) (by decide) (by decide) (by decide)⟩

/-- C16. On a history within capacity whose undo stack is non-empty, `Undo` makes, in this
order and nothing else: `UTIL_LCD_FillCircle` at the popped action's position with radius 10
in white; the two calls of `Touchscreen_DrawCanvas` that draw the canvas border rectangle
(text colour black, then `UTIL_LCD_DrawRect`); and one `UTIL_LCD_FillCircle` of radius 5 in
the stored colour for each action remaining in the undo stack after the pop, from index 0 to
the new `undoTop`.  The popped action is the last element of the old undo stack and the
replayed ones are the old undo stack without it, so the calls depend on the undo stack
alone. -/
theorem C16_undo_render_sequence (c : LcdColors) (s : State) (h : WithinCapacity s)
    (hne : undoList s ≠ []) :
    ∃ s' a, Undo c s = some s' ∧ (undoList s).getLast? = some a ∧
      undoList s' = (undoList s).dropLast ∧
      s'.lcd = s.lcd ++
        ([UTIL_LCD_FillCircle a.x a.y 10 c.UTIL_LCD_COLOR_WHITE] ++
          [UTIL_LCD_SetTextColor c.UTIL_LCD_COLOR_BLACK,
            UTIL_LCD_DrawRect CANVAS_XPOS CANVAS_YPOS CANVAS_WIDTH CANVAS_HEIGHT
              c.UTIL_LCD_COLOR_BLACK] ++
          (undoList s').map (fun b => UTIL_LCD_FillCircle b.x b.y 5 b.color)) := by
  obtain ⟨-, hu1, hr0, -⟩ := h
  have hu0 : 0 ≤ s.undoTop := stackView_ne_nil _ _ hne
  obtain ⟨hd, hl⟩ := stackView_dropLast s.undoStack s.undoTop hu0
  by_cases hr : s.redoTop < MAX_HISTORY_SIZE - 1
  · refine ⟨_, s.undoStack s.undoTop.toNat, Undo_of_room c s hu0 hu1 hr0 hr, hl, hd.symm, ?_⟩
    simp [undoList, replayDot, Function.comp_def]
  · refine ⟨_, s.undoStack s.undoTop.toNat, Undo_of_full c s hu0 hu1 hr, hl, hd.symm, ?_⟩
    simp [undoList, replayDot, Function.comp_def]

/-- C16 at the history with undo stack `[{1,2,3}, {4,5,6}]` and redo stack `[{7,8,9}]`. -/
theorem C16_undo_render_sequence_witness :
    WithinCapacity sampleState ∧ undoList sampleState ≠ [] ∧
    ∃ s' a, Undo sampleColors sampleState = some s' ∧
      (undoList sampleState).getLast? = some a ∧
      undoList s' = (undoList sampleState).dropLast ∧
      s'.lcd = sampleState.lcd ++
        ([UTIL_LCD_FillCircle a.x a.y 10 sampleColors.UTIL_LCD_COLOR_WHITE] ++
          [UTIL_LCD_SetTextColor sampleColors.UTIL_LCD_COLOR_BLACK,
            UTIL_LCD_DrawRect CANVAS_XPOS CANVAS_YPOS CANVAS_WIDTH CANVAS_HEIGHT
              sampleColors.UTIL_LCD_COLOR_BLACK] ++
          (undoList s').map (fun b => UTIL_LCD_FillCircle b.x b.y 5 b.color)) :=
  ⟨by decide, by decide,
    C16_undo_render_sequence sampleColors sampleState (by decide) (by decide)⟩

/-- C17. Every history reached from the initial empty history by a sequence of
`SaveToUndoStack`, `Undo`, `Redo` and clear resets (each of which returns) satisfies
`len(undo) + len(redo) <= 150`; consequently the guard of the branch of `Undo` that discards
the popped action (`undoTop >= 0` with `redoTop < 149` false) and the guard of the branch of
`Redo` that does not push (`redoTop >= 0` with `undoTop < 149` false) never hold in such a
history. -/
theorem C17_combined_capacity (c : LcdColors) (ops : List HistoryOp) :
    ∃ s, applyOps c initialState ops = some s ∧
      (undoList s).length + (redoList s).length ≤ 150 ∧
      ¬ (s.undoTop ≥ 0 ∧ ¬ s.redoTop < MAX_HISTORY_SIZE - 1) ∧
      ¬ (s.redoTop ≥ 0 ∧ ¬ s.undoTop < MAX_HISTORY_SIZE - 1) := by
  obtain ⟨s, he, hi⟩ := applyOps_sessionInv c ops initialState (by decide)
  refine ⟨s, he, sessionInv_lengths s hi, ?_, ?_⟩
  · obtain ⟨h1, h2, h3, -⟩ := hi
    simp only [MAX_HISTORY_SIZE] at *
    omega
  · obtain ⟨h1, h2, h3, -⟩ := hi
    simp only [MAX_HISTORY_SIZE] at *
    omega

/-- C18. Index safety.  An access to `undoStack` or `redoStack` succeeds exactly for an index
in 0..149 and a lookup in `COLOR_LIST` exactly for an index in 0..4; in every session state
reachable from the initial state by any sequence of touch samples both tops lie in -1..149
and `selectedColorIndex` in 0..5, and dispatching any sample returns a state, so that every
array access made by `SaveToUndoStack`, `Undo`, `Redo`, `RedrawCanvas` and the canvas branch
while dispatching it is in bounds. -/
theorem C18_index_safety (c : LcdColors) (s : State) (x1 y1 : Nat) (hr : Reachable c s) :
    (∀ (a : Nat → DrawingAction) (i : Int), arrRead a i ≠ none ↔ 0 ≤ i ∧ i ≤ 149) ∧
    (∀ (a : Nat → DrawingAction) (i : Int) (f : DrawingAction → DrawingAction),
      arrModify a i f ≠ none ↔ 0 ≤ i ∧ i ≤ 149) ∧
    (∀ i : Nat, (COLOR_LIST c)[i]? ≠ none ↔ i ≤ 4) ∧
    (-1 ≤ s.undoTop ∧ s.undoTop ≤ 149 ∧ -1 ≤ s.redoTop ∧ s.redoTop ≤ 149 ∧
      s.selectedColorIndex ≤ 5) ∧
    ∃ s', Touchscreen_demo.onTouch c s x1 y1 = some s' ∧ Reachable c s' := by
  have hi := hr.loopInv
  refine ⟨?_, ?_, ?_, ?_, ?_⟩
  · intro a i
    simp only [arrRead, MAX_HISTORY_SIZE]
    split_ifs with h
    · simp only [ne_eq, not_false_eq_true, true_iff, reduceCtorEq]
      omega
    · simp only [ne_eq, not_true_eq_false, false_iff]
      omega
  · intro a i f
    simp only [arrModify, MAX_HISTORY_SIZE]
    split_ifs with h
    · simp only [ne_eq, not_false_eq_true, true_iff, reduceCtorEq]
      omega
    · simp only [ne_eq, not_true_eq_false, false_iff]
      omega
  · intro i
    simp only [COLOR_LIST, ne_eq, List.getElem?_eq_none_iff, List.length_cons, List.length_nil]
    omega
  · have hw := sessionInv_withinCapacity s hi
    obtain ⟨h1, h2, h3, h4⟩ := hw
    simp only [MAX_HISTORY_SIZE] at h2 h4
    exact ⟨h1, by omega, h3, by omega, hi.2.2.2⟩
  · obtain ⟨s', he, -, -⟩ := onTouch_sessionInv c s x1 y1 hi
    refine ⟨s', he, ?_⟩
    obtain ⟨s0, samples, h0, hrun⟩ := hr
    refine ⟨s0, samples ++ [(x1, y1)], h0, ?_⟩
    exact run_append_one c samples s0 s s' x1 y1 hrun he

/-- C18 at the first poll of the session, for a touch at the centre `(437, 100)` of the
undo button. -/
theorem C18_index_safety_witness :
    Reachable sampleColors (bootState sampleColors) ∧
    ∃ s', Touchscreen_demo.onTouch sampleColors (bootState sampleColors) 437 100 = some s' ∧
      Reachable sampleColors s' :=
  ⟨reachable_bootState sampleColors,
    (C18_index_safety sampleColors (bootState sampleColors) 437 100
      (reachable_bootState sampleColors)).2.2.2.2⟩

/-- C19. When the undo stack already holds 150 actions (`undoTop = 149`) and a palette
colour or the eraser is selected, dispatching a touch inside the canvas rectangle makes
exactly one LCD call, the draw call (`UTIL_LCD_FillCircle` with radius 5 in the selected
colour, or with radius 10 in white for the eraser), while the undo stack and the redo stack
stay unchanged; a `RedrawCanvas` run afterwards replays the old undo stack only, so the mark
is rendered but is not part of the snapshot. -/
theorem C19_full_stack_draw_not_recorded (c : LcdColors) (s : State) (x1 y1 : Nat)
    (hfull : s.undoTop = 149) (hsel : s.selectedColorIndex ≤ 5) (hp : canvasHit x1 y1) :
    (undoList s).length = 150 ∧
    ∃ s' call, Touchscreen_demo.onTouch c s x1 y1 = some s' ∧ s'.lcd = s.lcd ++ [call] ∧
      ((s.selectedColorIndex < 5 ∧ ∃ col, (COLOR_LIST c)[s.selectedColorIndex]? = some col ∧
          call = UTIL_LCD_FillCircle x1 y1 5 col) ∨
        (s.selectedColorIndex = 5 ∧
          call = UTIL_LCD_FillCircle x1 y1 10 c.UTIL_LCD_COLOR_WHITE)) ∧
      undoList s' = undoList s ∧ redoList s' = redoList s ∧
      ∃ s'', RedrawCanvas s' = some s'' ∧
        s''.lcd = s'.lcd ++ (undoList s).map (fun a => UTIL_LCD_FillCircle a.x a.y 5 a.color) := by
  have hlen := stackView_length s.undoStack s.undoTop (by omega)
  have hnr : ¬ s.undoTop < MAX_HISTORY_SIZE - 1 := by
    simp only [MAX_HISTORY_SIZE]
    omega
  refine ⟨by simp only [undoList]; omega, ?_⟩
  by_cases hlt : s.selectedColorIndex < NUM_COLORS
  · obtain ⟨col, hcol⟩ := COLOR_LIST_getElem? c s.selectedColorIndex hlt
    refine ⟨emit s (UTIL_LCD_FillCircle x1 y1 5 col), UTIL_LCD_FillCircle x1 y1 5 col, ?_, rfl,
      Or.inl ⟨hlt, col, hcol, rfl⟩, rfl, rfl, ?_⟩
    · rw [onTouch_of_canvasHit c s x1 y1 hp, canvasBranch_of_colour c x1 y1 s col hlt hcol]
      exact draw_and_commit_of_full s _ x1 y1 col hnr
    · exact RedrawCanvas_replay (emit s (UTIL_LCD_FillCircle x1 y1 5 col))
        (show -1 ≤ s.undoTop by omega)
        (show s.undoTop ≤ MAX_HISTORY_SIZE - 1 by simp only [MAX_HISTORY_SIZE]; omega)
  · have heq : s.selectedColorIndex = NUM_COLORS := by
      simp only [NUM_COLORS] at hlt ⊢
      omega
    refine ⟨emit s (UTIL_LCD_FillCircle x1 y1 10 c.UTIL_LCD_COLOR_WHITE),
      UTIL_LCD_FillCircle x1 y1 10 c.UTIL_LCD_COLOR_WHITE, ?_, rfl, Or.inr ⟨heq, rfl⟩, rfl, rfl,
      ?_⟩
    · rw [onTouch_of_canvasHit c s x1 y1 hp, canvasBranch_of_eraser c x1 y1 s heq]
      exact draw_and_commit_of_full s _ x1 y1 _ hnr
    · exact RedrawCanvas_replay (emit s (UTIL_LCD_FillCircle x1 y1 10 c.UTIL_LCD_COLOR_WHITE))
        (show -1 ≤ s.undoTop by omega)
        (show s.undoTop ≤ MAX_HISTORY_SIZE - 1 by simp only [MAX_HISTORY_SIZE]; omega)

/-- C19 at a history with 150 undo actions and the first palette colour selected, for a
touch at `(100, 100)`. -/
theorem C19_full_stack_draw_not_recorded_witness :
    fullState.undoTop = 149 ∧ fullState.selectedColorIndex ≤ 5 ∧ canvasHit 100 100 ∧
    (undoList fullState).length = 150 ∧
    ∃ s' call, Touchscreen_demo.onTouch sampleColors fullState 100 100 = some s' ∧
      s'.lcd = fullState.lcd ++ [call] ∧
      ((fullState.selectedColorIndex < 5 ∧
          ∃ col, (COLOR_LIST sampleColors)[fullState.selectedColorIndex]? = some col ∧
          call = UTIL_LCD_FillCircle 100 100 5 col) ∨
        (fullState.selectedColorIndex = 5 ∧
          call = UTIL_LCD_FillCircle 100 100 10 sampleColors.UTIL_LCD_COLOR_WHITE)) ∧
      undoList s' = undoList fullState ∧ redoList s' = redoList fullState ∧
      ∃ s'', RedrawCanvas s' = some s'' ∧
        s''.lcd = s'.lcd ++
          (undoList fullState).map (fun a => UTIL_LCD_FillCircle a.x a.y 5 a.color) :=
  ⟨by decide, by decide, by decide,
    C19_full_stack_draw_not_recorded sampleColors fullState 100 100 (by decide) (by decide)
      (by decide)⟩

/-- C20. Every replay of a recorded action emits `UTIL_LCD_FillCircle` with radius 5 and the
stored colour: `Redo` for the action it pops, `RedrawCanvas` for every action of the undo
stack.  Hence for an action committed by a canvas touch with the eraser selected, which the
dispatcher draws with radius 10 in white, the replayed call differs from the original one,
whereas for an action committed with palette colour `i` the replayed call equals the
original.  Stated for a history within capacity with a non-empty redo stack and fewer than
150 undo actions. -/
theorem C20_replay_uses_radius_five (c : LcdColors) (s : State) (i x1 y1 : Nat)
    (hw : WithinCapacity s) (hroom : (undoList s).length < 150) (hne : redoList s ≠ [])
    (hi : i < 5) (hp : canvasHit x1 y1) :
    (∃ s' a, Redo s = some s' ∧ redoList s = redoList s' ++ [a] ∧
      s'.lcd = s.lcd ++ [UTIL_LCD_FillCircle a.x a.y 5 a.color]) ∧
    (∃ s', RedrawCanvas s = some s' ∧
      s'.lcd = s.lcd ++ (undoList s).map (fun a => UTIL_LCD_FillCircle a.x a.y 5 a.color)) ∧
    (∃ s' a orig,
      Touchscreen_demo.onTouch c { s with selectedColorIndex := NUM_COLORS } x1 y1 = some s' ∧
      undoList s' = undoList s ++ [a] ∧ s'.lcd = s.lcd ++ [orig] ∧
      orig = UTIL_LCD_FillCircle x1 y1 10 c.UTIL_LCD_COLOR_WHITE ∧
      UTIL_LCD_FillCircle a.x a.y 5 a.color ≠ orig ∧
      ∃ s'', RedrawCanvas s' = some s'' ∧
        s''.lcd = s'.lcd ++ (undoList s).map (fun b => UTIL_LCD_FillCircle b.x b.y 5 b.color) ++
          [UTIL_LCD_FillCircle a.x a.y 5 a.color]) ∧
    (∃ s' a orig,
      Touchscreen_demo.onTouch c { s with selectedColorIndex := i } x1 y1 = some s' ∧
      undoList s' = undoList s ++ [a] ∧ s'.lcd = s.lcd ++ [orig] ∧
      UTIL_LCD_FillCircle a.x a.y 5 a.color = orig ∧
      ∃ s'', RedrawCanvas s' = some s'' ∧
        s''.lcd = s'.lcd ++ (undoList s).map (fun b => UTIL_LCD_FillCircle b.x b.y 5 b.color) ++
          [UTIL_LCD_FillCircle a.x a.y 5 a.color]) := by
  obtain ⟨hu0, hu1, hr0, hr1⟩ := hw
  have hlen := stackView_length s.undoStack s.undoTop hu0
  have hlt : s.undoTop < MAX_HISTORY_SIZE - 1 := by
    simp only [undoList] at hroom
    simp only [MAX_HISTORY_SIZE]
    omega
  have hrne : 0 ≤ s.redoTop := stackView_ne_nil _ _ hne
  refine ⟨?_, RedrawCanvas_replay s hu0 hu1, ?_, ?_⟩
  · refine ⟨_, s.redoStack s.redoTop.toNat, Redo_of_room s hrne hr1 hu0 hlt, ?_, rfl⟩
    simp only [redoList]
    exact stackView_pop s.redoStack s.redoTop hrne
  · obtain ⟨s', he, hl, -, hlcd, -⟩ := draw_and_commit_of_room
      { s with selectedColorIndex := NUM_COLORS }
      (UTIL_LCD_FillCircle x1 y1 10 c.UTIL_LCD_COLOR_WHITE) x1 y1 c.UTIL_LCD_COLOR_WHITE hu0 hlt
    have hs' := SaveToUndoStack_of_room
      (emit { s with selectedColorIndex := NUM_COLORS }
        (UTIL_LCD_FillCircle x1 y1 10 c.UTIL_LCD_COLOR_WHITE)) x1 y1 c.UTIL_LCD_COLOR_WHITE
      hu0 hlt
    rw [he] at hs'
    have htop : s'.undoTop = s.undoTop + 1 := by
      rw [Option.some.inj hs']
      rfl
    obtain ⟨s'', he2, hl2⟩ := RedrawCanvas_replay s' (by omega) (by omega)
    refine ⟨s', ⟨x1, y1, c.UTIL_LCD_COLOR_WHITE⟩, _, ?_, hl, hlcd, rfl, ?_, s'', he2, ?_⟩
    · rw [onTouch_of_canvasHit c _ x1 y1 hp, canvasBranch_of_eraser c x1 y1 _ rfl, he]
    · simp
    · rw [hl2, hl]
      simp only [List.map_append, List.map_cons, List.map_nil, List.append_assoc]
      rfl
  · obtain ⟨col, hcol⟩ := COLOR_LIST_getElem? c i hi
    obtain ⟨s', he, hl, -, hlcd, -⟩ := draw_and_commit_of_room
      { s with selectedColorIndex := i } (UTIL_LCD_FillCircle x1 y1 5 col) x1 y1 col hu0 hlt
    have hs' := SaveToUndoStack_of_room
      (emit { s with selectedColorIndex := i } (UTIL_LCD_FillCircle x1 y1 5 col)) x1 y1 col
      hu0 hlt
    rw [he] at hs'
    have htop : s'.undoTop = s.undoTop + 1 := by
      rw [Option.some.inj hs']
      rfl
    obtain ⟨s'', he2, hl2⟩ := RedrawCanvas_replay s' (by omega) (by omega)
    refine ⟨s', ⟨x1, y1, col⟩, _, ?_, hl, hlcd, rfl, s'', he2, ?_⟩
    · rw [onTouch_of_canvasHit c _ x1 y1 hp, canvasBranch_of_colour c x1 y1 _ col hi hcol, he]
    · rw [hl2, hl]
      simp only [List.map_append, List.map_cons, List.map_nil, List.append_assoc]
      rfl

/-- C20 at the history with undo stack `[{1,2,3}, {4,5,6}]` and redo stack `[{7,8,9}]`, for
palette colour 2 and a touch at `(100, 100)`. -/
theorem C20_replay_uses_radius_five_witness :
    WithinCapacity sampleState ∧ (undoList sampleState).length < 150 ∧
    redoList sampleState ≠ [] ∧ 2 < 5 ∧ canvasHit 100 100 ∧
    (∃ s' a orig,
      Touchscreen_demo.onTouch sampleColors
        { sampleState with selectedColorIndex := NUM_COLORS } 100 100 = some s' ∧
      undoList s' = undoList sampleState ++ [a] ∧ s'.lcd = sampleState.lcd ++ [orig] ∧
      orig = UTIL_LCD_FillCircle 100 100 10 sampleColors.UTIL_LCD_COLOR_WHITE ∧
      UTIL_LCD_FillCircle a.x a.y 5 a.color ≠ orig ∧
      ∃ s'', RedrawCanvas s' = some s'' ∧
        s''.lcd = s'.lcd ++
          (undoList sampleState).map (fun b => UTIL_LCD_FillCircle b.x b.y 5 b.color) ++
          [UTIL_LCD_FillCircle a.x a.y 5 a.color]) :=
  ⟨by decide, by decide, by decide, by decide, by decide,
    (C20_replay_uses_radius_five sampleColors sampleState 2 100 100 (by decide) (by decide)
      (by decide) (by decide) (by decide)).2.2.1⟩

end Touchscreen
